import Mathlib

/-!
Gesture unlock engine: calibration, dead-band, trimming, correlation scoring
and the unlock decision. A shallow embedding of `src/gyro.cpp` and
`src/main.cpp`.

* `int16_t` objects are integers; every store of an `int` result into an
  `int16_t` object goes through `wrap16` (reduction modulo `2^16` into
  `[-32768, 32767]`).
* `float` values have two embeddings. For what does not depend on the
  rounding of their values (lengths, `err`, the control flow of trimming and
  of the decision) they are elements of a linearly ordered field `α`, `sqrt`
  is a parameter of the scoring functions, and the one `float` division of
  the code, the last statement of `correlation`, has a value in `FloatVal α`:
  a finite quotient, or an infinity or NaN when the divisor is zero. For the
  values that the scoring functions compute they are IEEE 754 binary32
  numbers, `F32`, with round to nearest even and one rounding for each
  operation of the source: the scoring functions are written once more over
  an arithmetic `FloatArith F`, of which `binary32` is the one of the target.
* A `vector<array<float, 3>>` is a `List (Array3 α)`; iterators are indices.
* The sensor is a function from the index of the read inside a burst to the
  raw triple that `GetGyroValue` stores.
-/

namespace GestureUnlock

/-! ## gyro.cpp -/

/-- The value an `int16_t` object holds after an `int` value is stored in it. -/
def wrap16 (x : Int) : Int := (x + 32768) % 65536 - 32768

/-- The raw triple filled by `GetGyroValue` (three `int16_t` fields). -/
structure Gyroscope_RawData where
  x_raw : Int
  y_raw : Int
  z_raw : Int
deriving DecidableEq

/-- The file-scope calibration variables of `gyro.cpp`. -/
structure GyroState where
  x_threshold : Int
  y_threshold : Int
  z_threshold : Int
  x_sample : Int
  y_sample : Int
  z_sample : Int
deriving DecidableEq

/-- The state at boot: file-scope `int16_t` objects are zero-initialised. -/
def GyroState.boot : GyroState := ⟨0, 0, 0, 0, 0, 0⟩

/-- The locals and globals that the calibration loop updates. -/
structure CalibLoop where
  sumX : Int
  sumY : Int
  sumZ : Int
  x_threshold : Int
  y_threshold : Int
  z_threshold : Int
deriving DecidableEq

/-- One iteration of the loop of `CalibrateGyroscope` on the reading `r`:
`sumX += r.x_raw` (an `int16_t` accumulator) and
`x_threshold = max(x_threshold, r.x_raw)`, likewise for the other axes. -/
def calibrateStep (c : CalibLoop) (r : Gyroscope_RawData) : CalibLoop :=
  { sumX := wrap16 (c.sumX + r.x_raw)
    sumY := wrap16 (c.sumY + r.y_raw)
    sumZ := wrap16 (c.sumZ + r.z_raw)
    x_threshold := max c.x_threshold r.x_raw
    y_threshold := max c.y_threshold r.y_raw
    z_threshold := max c.z_threshold r.z_raw }

/-- The loop `for (int i = 0; i < 128; i++)` of `CalibrateGyroscope`, the
`i`-th call of `GetGyroValue` storing `sensor i`. -/
def calibrateLoop (st : GyroState) (sensor : Nat → Gyroscope_RawData) : CalibLoop :=
  (List.range 128).foldl (fun c i => calibrateStep c (sensor i))
    { sumX := 0, sumY := 0, sumZ := 0
      x_threshold := st.x_threshold
      y_threshold := st.y_threshold
      z_threshold := st.z_threshold }

/-- Function `CalibrateGyroscope`: the sums start at zero, the thresholds start at their
current values; after the loop each offset is `sum >> 7`. -/
def CalibrateGyroscope (st : GyroState) (sensor : Nat → Gyroscope_RawData) : GyroState :=
  let c := calibrateLoop st sensor
  { x_threshold := c.x_threshold
    y_threshold := c.y_threshold
    z_threshold := c.z_threshold
    x_sample := wrap16 (c.sumX >>> (7 : Nat))
    y_sample := wrap16 (c.sumY >>> (7 : Nat))
    z_sample := wrap16 (c.sumZ >>> (7 : Nat)) }

/-- Function `GetCalibratedRawData`, statement by statement, on the triple `reading`
that `GetGyroValue` stored in `*gyro_raw`; the result is `*gyro_raw` after the
call. `abs` is taken on the value promoted to `int`. -/
def GetCalibratedRawData (st : GyroState) (reading : Gyroscope_RawData) : Gyroscope_RawData :=
  let g := reading
  let g := { g with x_raw := wrap16 (g.x_raw - st.x_sample) }
  let g := { g with y_raw := wrap16 (g.y_raw - st.y_sample) }
  let g := { g with z_raw := wrap16 (g.z_raw - st.z_sample) }
  let g := if |g.x_raw| < |st.x_threshold| then { g with x_raw := 0 } else g
  let g := if |g.y_raw| < |st.y_threshold| then { g with y_raw := 0 } else g
  let g := if |g.z_raw| < |st.z_threshold| then { g with z_raw := 0 } else g
  g

/-- The sum of the 128 readings `f 0, ..., f 127` of one axis, as an
unbounded integer. -/
def burstSum (f : Nat → Int) : Int :=
  ((List.range 128).map f).sum

/-- The largest of the 128 readings `f 0, ..., f 127` of one axis. -/
def burstMax (f : Nat → Int) : Int :=
  ((List.range 127).map (fun i => f (i + 1))).foldl max (f 0)

/-- The burst in which every read returns `v` on every axis. -/
def constantBurst (v : Int) : Nat → Gyroscope_RawData :=
  fun _ => ⟨v, v, v⟩


/-! ## main.cpp -/

/-- An `array<float, 3>`: the three axis values of one frame. -/
structure Array3 (α : Type) where
  v0 : α
  v1 : α
  v2 : α
deriving DecidableEq

/-- Element access `arr[i]` for `i = 0, 1, 2`. -/
def Array3.get {α : Type} (arr : Array3 α) : Fin 3 → α
  | 0 => arr.v0
  | 1 => arr.v1
  | 2 => arr.v2

section Trim

variable {α : Type} [LinearOrderedField α]

/-- The local `threshold = 1e-8f` of `trim_gyro_data`. -/
def threshold : α := 1 / 100000000

/-- The test both scanning loops of `trim_gyro_data` apply to `*ptr`:
`abs((*ptr)[0]) <= threshold && abs((*ptr)[1]) <= threshold &&
abs((*ptr)[2]) <= threshold`. -/
def withinThreshold (f : Array3 α) : Bool :=
  decide (|f.get 0| ≤ threshold) && decide (|f.get 1| ≤ threshold) &&
    decide (|f.get 2| ≤ threshold)

/-- The first loop of `trim_gyro_data`, from `ptr = data.begin()`: the result
is the index where `ptr` stops (`data.size()` when it reaches `data.end()`). -/
def scanForward : List (Array3 α) → Nat
  | [] => 0
  | f :: rest => if withinThreshold f then scanForward rest + 1 else 0

/-- The second loop of `trim_gyro_data`, from the index `ptr`: it steps back
while the frame at `ptr` passes the test and `ptr != data.begin()`. -/
def scanBackward (data : List (Array3 α)) : Nat → Nat
  | 0 => 0
  | ptr + 1 =>
    if withinThreshold (data.getD (ptr + 1) ⟨0, 0, 0⟩) then scanBackward data ptr
    else ptr + 1

/-- The copy loop of `trim_gyro_data`:
`for (; replace_ptr != lptr && lptr <= rptr; replace_ptr++, lptr++)
*replace_ptr = *lptr;`. The result is the vector and the two iterators at the
exit of the loop. -/
def copyLoop (rptr : Nat) (data : List (Array3 α)) (replace_ptr lptr : Nat) :
    List (Array3 α) × Nat × Nat :=
  if replace_ptr ≠ lptr ∧ lptr ≤ rptr then
    copyLoop rptr (data.set replace_ptr (data.getD lptr ⟨0, 0, 0⟩)) (replace_ptr + 1) (lptr + 1)
  else (data, replace_ptr, lptr)
termination_by rptr + 1 - lptr
decreasing_by omega

/-- Function `trim_gyro_data`: the result is the vector `data` after the call.
`data.erase(it, data.end())` keeps the elements before `it`. -/
def trim_gyro_data (data : List (Array3 α)) : List (Array3 α) :=
  let ptr := scanForward data
  if ptr = data.length then data
  else
    let lptr := ptr
    let rptr := scanBackward data (data.length - 1)
    let (data, replace_ptr, lptr) := copyLoop rptr data 0 lptr
    if lptr > rptr then data.take replace_ptr
    else data.take (rptr + 1)

end Trim

section Scoring

variable {α : Type} [LinearOrderedField α]

/-- The value of a `float` expression that ends in a division: a finite
number, or the non-finite result of a division by zero. -/
inductive FloatVal (α : Type) where
  | fin (x : α)
  | posInf
  | negInf
  | nan
deriving DecidableEq

/-- The `float` division `x / y`: the exact quotient when `y` is not zero,
otherwise an infinity of the sign of `x`, or NaN for `0 / 0`. -/
def fdiv (x y : α) : FloatVal α :=
  if y = 0 then
    if 0 < x then FloatVal.posInf else if x < 0 then FloatVal.negInf else FloatVal.nan
  else FloatVal.fin (x / y)

/-- The comparison `v > t` of a `float` value with a finite number; every
comparison with NaN is false. -/
def FloatVal.gt (v : FloatVal α) (t : α) : Bool :=
  match v with
  | FloatVal.fin x => decide (t < x)
  | FloatVal.posInf => true
  | FloatVal.negInf => false
  | FloatVal.nan => false

/-- The five accumulators of `correlation`. -/
structure CorrSums (α : Type) where
  sum_a : α
  sum_b : α
  sum_ab : α
  sq_sum_a : α
  sq_sum_b : α
deriving DecidableEq

/-- The body of the loop of `correlation` at index `i`. -/
def corrStep (a b : List α) (s : CorrSums α) (i : Nat) : CorrSums α :=
  { sum_a := s.sum_a + a.getD i 0
    sum_b := s.sum_b + b.getD i 0
    sum_ab := s.sum_ab + a.getD i 0 * b.getD i 0
    sq_sum_a := s.sq_sum_a + a.getD i 0 * a.getD i 0
    sq_sum_b := s.sq_sum_b + b.getD i 0 * b.getD i 0 }

/-- The loop `for (size_t i = 0; i < a.size(); ++i)` of `correlation`. -/
def corrSums (a b : List α) : CorrSums α :=
  (List.range a.length).foldl (corrStep a b) ⟨0, 0, 0, 0, 0⟩

/-- The local `numerator` of `correlation`. -/
def numerator (a b : List α) : α :=
  let s := corrSums a b
  (a.length : α) * s.sum_ab - s.sum_a * s.sum_b

/-- The local `denominator` of `correlation`. -/
def denominator (sqrt : α → α) (a b : List α) : α :=
  let s := corrSums a b
  sqrt (((a.length : α) * s.sq_sum_a - s.sum_a * s.sum_a) *
    ((a.length : α) * s.sq_sum_b - s.sum_b * s.sum_b))

/-- Function `correlation`: the returned value and the global `err` after the call. -/
def correlation (sqrt : α → α) (err : Int) (a b : List α) : FloatVal α × Int :=
  if a.length ≠ b.length then (FloatVal.fin 0, -1)
  else (fdiv (numerator a b) (denominator sqrt a b), err)

/-- Member `vector::resize(n, v)`: the first `n` elements, followed by copies of `v`
when the vector is shorter than `n`. -/
def resize (l : List α) (n : Nat) (v : α) : List α :=
  l.take n ++ List.replicate (n - l.length) v

/-- The vectors `a` and `b` that `calculateCorrelationVectors` passes to
`correlation` for axis `i`. -/
def axisVectors (vec1 vec2 : List (Array3 α)) (i : Fin 3) : List α × List α :=
  let a := vec1.map fun arr => arr.get i
  let b := vec2.map fun arr => arr.get i
  if a.length > b.length then (resize a b.length 0, b)
  else if b.length > a.length then (a, resize b a.length 0)
  else (a, b)

/-- Function `calculateCorrelationVectors`: the returned array and the global `err`
after the call. -/
def calculateCorrelationVectors (sqrt : α → α) (err : Int) (vec1 vec2 : List (Array3 α)) :
    Array3 (FloatVal α) × Int :=
  let r0 := correlation sqrt err (axisVectors vec1 vec2 0).1 (axisVectors vec1 vec2 0).2
  let r1 := correlation sqrt r0.2 (axisVectors vec1 vec2 1).1 (axisVectors vec1 vec2 1).2
  let r2 := correlation sqrt r1.2 (axisVectors vec1 vec2 2).1 (axisVectors vec1 vec2 2).2
  (⟨r0.1, r1.1, r2.1⟩, r2.2)

/-- The Pearson coefficient of two arrays by the formula
`(n Σ aᵢbᵢ − Σ aᵢ Σ bᵢ) / sqrt ((n Σ aᵢ² − (Σ aᵢ)²) (n Σ bᵢ² − (Σ bᵢ)²))`,
with `n` the length of `a`. -/
def pearson (sqrt : α → α) (a b : List α) : FloatVal α :=
  fdiv ((a.length : α) * (List.zipWith (· * ·) a b).sum - a.sum * b.sum)
    (sqrt (((a.length : α) * (a.map (· ^ 2)).sum - a.sum ^ 2) *
      ((a.length : α) * (b.map (· ^ 2)).sum - b.sum ^ 2)))

/-- The array `l` padded with zeros up to length `n`. -/
def zeroPad (l : List α) (n : Nat) : List α :=
  l ++ List.replicate (n - l.length) 0

/-- The values of axis `i` of a sequence, in order. -/
def axisOf (v : List (Array3 α)) (i : Fin 3) : List α :=
  v.map fun arr => arr.get i

end Scoring

section Engine

variable {α : Type} [LinearOrderedField α]

/-- Constant `CORRELATION_THRESHOLD`, `0.0005f`. -/
def CORRELATION_THRESHOLD : α := 5 / 10000

/-- Event flag of a record request. -/
def KEY_FLAG : Nat := 1

/-- Event flag of an unlock request. -/
def UNLOCK_FLAG : Nat := 2

/-- Event flag of an erase request. -/
def ERASE_FLAG : Nat := 4

/-- The globals of `main.cpp` that `gyroscope_thread` reads and writes. -/
structure EngineState (α : Type) where
  gesture_key : List (Array3 α)
  unlocking_record : List (Array3 α)
  err : Int
deriving DecidableEq

/-- The last status line an iteration of `gyroscope_thread` displays. -/
inductive Status where
  | allErasingFinish
  | keySaved
  | newKeySaved
  | noKeySaved
  | unlockSuccess
  | unlockFailed
deriving DecidableEq

/-- The loop over `correlationResult` that counts the axes above
`CORRELATION_THRESHOLD`. -/
def countAbove (correlationResult : Array3 (FloatVal α)) : Nat :=
  (List.finRange 3).foldl
    (fun unlock i =>
      if (correlationResult.get i).gt CORRELATION_THRESHOLD then unlock + 1 else unlock) 0

/-- The local `unlock` after the `if (err != 0) ... else ...` statement. -/
def unlockCounter (err : Int) (correlationResult : Array3 (FloatVal α)) : Nat :=
  if err ≠ 0 then 0 else countAbove correlationResult

/-- The message chosen by `if (unlock == 3) ... else ...`. -/
def unlockStatus (unlock : Nat) : Status :=
  if unlock = 3 then Status.unlockSuccess else Status.unlockFailed

/-- The branch `else if (flag_check & UNLOCK_FLAG)` of `gyroscope_thread`,
entered with the trimmed capture `temp_key`. -/
def unlockBranch (sqrt : α → α) (st : EngineState α) (temp_key : List (Array3 α)) :
    EngineState α × Status :=
  let st := { st with unlocking_record := temp_key }
  if st.gesture_key.isEmpty then
    ({ st with unlocking_record := [] }, Status.noKeySaved)
  else
    let r := calculateCorrelationVectors sqrt st.err st.gesture_key st.unlocking_record
    let st := { st with err := r.2 }
    let unlock := unlockCounter st.err r.1
    ({ st with unlocking_record := [] }, unlockStatus unlock)

/-- The branch `if (flag_check & KEY_FLAG)` of `gyroscope_thread`, entered
with the trimmed capture `temp_key`. -/
def keyBranch (st : EngineState α) (temp_key : List (Array3 α)) : EngineState α × Status :=
  if st.gesture_key.isEmpty then
    ({ st with gesture_key := temp_key }, Status.keySaved)
  else
    let st := { st with gesture_key := [] }
    ({ st with gesture_key := temp_key }, Status.newKeySaved)

/-- The `if (flag_check & ERASE_FLAG)` block of `gyroscope_thread`. -/
def eraseBlock (st : EngineState α) : EngineState α :=
  let st := { st with gesture_key := [] }
  { st with unlocking_record := [] }

/-- One iteration of the event loop of `gyroscope_thread`, woken with
`flag_check`; `capture` holds the frames the capture loop pushes to
`temp_key` when a capture runs. The result is the state and the last status
message of the iteration, if any. -/
def gyroscope_thread_iteration (sqrt : α → α) (st : EngineState α) (flag_check : Nat)
    (capture : List (Array3 α)) : EngineState α × Option Status :=
  let temp_key : List (Array3 α) := []
  let (st, msg) :=
    if flag_check &&& ERASE_FLAG ≠ 0 then (eraseBlock st, some Status.allErasingFinish)
    else (st, none)
  let temp_key :=
    if flag_check &&& (KEY_FLAG ||| UNLOCK_FLAG) ≠ 0 then trim_gyro_data capture
    else temp_key
  if flag_check &&& KEY_FLAG ≠ 0 then
    let r := keyBranch st temp_key
    (r.1, some r.2)
  else if flag_check &&& UNLOCK_FLAG ≠ 0 then
    let r := unlockBranch sqrt st temp_key
    (r.1, some r.2)
  else (st, msg)

end Engine

section Flash

/-- A byte of flash memory or of an object in memory. -/
abbrev Byte := Fin 256

/-- The object representation of a `float`: its four bytes in memory order.
Two `float` values are bit-identical when these bytes are equal. -/
structure FloatBytes where
  b0 : Byte
  b1 : Byte
  b2 : Byte
  b3 : Byte
deriving DecidableEq

/-- The value of `sizeof(array<float, 3>)`: three `float` objects of four
bytes, without padding. -/
def sizeofArray3 : Nat := 12

/-- The members of the `FlashIAP` driver that the two flash functions call,
on a device in state `Φ`. `program fl buf addr` stands for
`program(buffer, addr, size)` with `buf` the `size` bytes found at `buffer`,
and gives the new state and the result code; `read fl addr size` gives the
bytes that `read(buffer, addr, size)` stores at `buffer`. -/
structure FlashIAP (Φ : Type) where
  init : Φ → Φ
  deinit : Φ → Φ
  erase : Φ → Nat → Nat → Φ
  program : Φ → List Byte → Nat → Φ × Int
  read : Φ → Nat → Nat → List Byte

/-- A flash on which reading returns the bytes last programmed: a successful
`program` (result code 0) followed by a `read` of the same address and size
gives the programmed bytes, and `init` and `deinit` do not change what is
read. -/
structure FlashIAP.ReadsBack {Φ : Type} (F : FlashIAP Φ) : Prop where
  read_init : ∀ fl addr size, F.read (F.init fl) addr size = F.read fl addr size
  read_deinit : ∀ fl addr size, F.read (F.deinit fl) addr size = F.read fl addr size
  read_program : ∀ fl buf addr, (F.program fl buf addr).2 = 0 →
    F.read (F.program fl buf addr).1 addr buf.length = buf

/-- The four bytes of a `float` object. -/
def floatBytes (x : FloatBytes) : List Byte := [x.b0, x.b1, x.b2, x.b3]

/-- The twelve bytes of an `array<float, 3>` object. -/
def frameBytes (f : Array3 FloatBytes) : List Byte :=
  floatBytes f.v0 ++ floatBytes f.v1 ++ floatBytes f.v2

/-- The bytes at `gesture_key.data()`: the frames one after the other. -/
def vectorBytes : List (Array3 FloatBytes) → List Byte
  | [] => []
  | f :: rest => frameBytes f ++ vectorBytes rest

/-- The `float` object found at the start of the bytes `bs`. -/
def floatOfBytes (bs : List Byte) : FloatBytes :=
  ⟨bs.getD 0 0, bs.getD 1 0, bs.getD 2 0, bs.getD 3 0⟩

/-- The `array<float, 3>` object found at the start of the bytes `bs`. -/
def frameOfBytes (bs : List Byte) : Array3 FloatBytes :=
  ⟨floatOfBytes bs, floatOfBytes (bs.drop 4), floatOfBytes (bs.drop 8)⟩

/-- The `n` frames of a vector whose storage holds the bytes `bs`. -/
def framesOfBytes : Nat → List Byte → List (Array3 FloatBytes)
  | 0, _ => []
  | n + 1, bs => frameOfBytes bs :: framesOfBytes n (bs.drop sizeofArray3)

/-- The storage `storage` after the bytes `bytes` are stored at its start. -/
def overwrite (storage bytes : List Byte) : List Byte :=
  (bytes ++ storage.drop bytes.length).take storage.length

/-- Function `storeGyroDataToFlash`: the device state after the call and the
returned value. `data_size` is a `uint32_t`. -/
def storeGyroDataToFlash {Φ : Type} (F : FlashIAP Φ) (fl : Φ)
    (gesture_key : List (Array3 FloatBytes)) (flash_address : Nat) : Φ × Bool :=
  let fl := F.init fl
  let data_size := (gesture_key.length * sizeofArray3) % 2 ^ 32
  let fl := F.erase fl flash_address data_size
  let r := F.program fl ((vectorBytes gesture_key).take data_size) flash_address
  let write_result := r.2
  let fl := F.deinit r.1
  (fl, decide (write_result = 0))

/-- Function `readGyroDataFromFlash`: the returned vector. The vector is
created with `data_size` value-initialised frames, and `read` stores
`data_size * sizeof(array<float, 3>)` bytes (a `size_t` of 32 bits) at its
start. -/
def readGyroDataFromFlash {Φ : Type} (F : FlashIAP Φ) (fl : Φ) (flash_address : Nat)
    (data_size : Nat) : List (Array3 FloatBytes) :=
  let gesture_key : List (Array3 FloatBytes) :=
    List.replicate data_size ⟨⟨0, 0, 0, 0⟩, ⟨0, 0, 0, 0⟩, ⟨0, 0, 0, 0⟩⟩
  let fl := F.init fl
  let bytes := F.read fl flash_address ((data_size * sizeofArray3) % 2 ^ 32)
  framesOfBytes data_size (overwrite (vectorBytes gesture_key) bytes)

/-- A flash device whose content is a map from addresses to bytes: `erase`
sets the range to `0xFF`, `program` stores the bytes and succeeds, `read`
returns the content. -/
def memoryFlash : FlashIAP (Nat → Byte) where
  init := fun fl => fl
  deinit := fun fl => fl
  erase := fun fl addr size i => if addr ≤ i ∧ i < addr + size then 255 else fl i
  program := fun fl buf addr =>
    (fun i => if addr ≤ i ∧ i < addr + buf.length then buf.getD (i - addr) 0 else fl i, 0)
  read := fun fl addr size => (List.range size).map fun k => fl (addr + k)

end Flash

section Dtw

variable {α : Type} [LinearOrderedField α]

/-- Function `euclidean_distance`: the loop adds the squared difference of
each of the three axes to `sum`, and the result is `sqrt(sum)`. -/
def euclidean_distance (sqrt : α → α) (a b : Array3 α) : α :=
  sqrt ((List.finRange 3).foldl
    (fun sum i => sum + (a.get i - b.get i) * (a.get i - b.get i)) 0)

/-- The `vector<vector<float>> dtw_matrix` of `dtw`, as the map from a row and
a column to the entry; `⊤` is `numeric_limits<float>::infinity()`. -/
abbrev DtwMatrix (α : Type) := Nat → Nat → WithTop α

/-- The assignment `dtw_matrix[i][j] = v`. -/
def DtwMatrix.assign (M : DtwMatrix α) (i j : Nat) (v : WithTop α) : DtwMatrix α :=
  fun a b => if a = i ∧ b = j then v else M a b

/-- The body of the inner loop of `dtw` at `i`, `j`: `cost` is the distance
of `s[i - 1]` and `t[j - 1]`, and `dtw_matrix[i][j]` becomes `cost` plus the
least of the entries at `(i - 1, j)`, `(i, j - 1)` and `(i - 1, j - 1)`. -/
def dtwCell (sqrt : α → α) (s t : List (Array3 α)) (M : DtwMatrix α) (i j : Nat) :
    DtwMatrix α :=
  let cost := euclidean_distance sqrt (s.getD (i - 1) ⟨0, 0, 0⟩) (t.getD (j - 1) ⟨0, 0, 0⟩)
  M.assign i j ((cost : WithTop α) + min (M (i - 1) j) (min (M i (j - 1)) (M (i - 1) (j - 1))))

/-- The inner loop `for (size_t j = 1; j <= t.size(); ++j)` of `dtw` for the
row `i`. -/
def dtwRow (sqrt : α → α) (s t : List (Array3 α)) (M : DtwMatrix α) (i : Nat) :
    DtwMatrix α :=
  (List.range t.length).foldl (fun M k => dtwCell sqrt s t M i (k + 1)) M

/-- Function `dtw`: the matrix starts with infinity in every entry and 0 at
`[0][0]`, the two loops fill the rows `1..s.size()`, and the result is the
entry at `[s.size()][t.size()]`. -/
def dtw (sqrt : α → α) (s t : List (Array3 α)) : WithTop α :=
  let dtw_matrix : DtwMatrix α := DtwMatrix.assign (fun _ _ => ⊤) 0 0 0
  let dtw_matrix :=
    (List.range s.length).foldl (fun M k => dtwRow sqrt s t M (k + 1)) dtw_matrix
  dtw_matrix s.length t.length

/-- The recurrence `D(0,0) = 0`, `D(i,0) = D(0,j) = +infinity`,
`D(i,j) = d(s[i-1], t[j-1]) + min(D(i-1,j), D(i,j-1), D(i-1,j-1))`, with `d`
the distance `sqrt(Σ (a_k - b_k)²)` over the three axes. -/
def dtwRecurrence (sqrt : α → α) (s t : List (Array3 α)) : Nat → Nat → WithTop α
  | 0, 0 => 0
  | _ + 1, 0 => ⊤
  | 0, _ + 1 => ⊤
  | i + 1, j + 1 =>
    ((sqrt (((s.getD i ⟨0, 0, 0⟩).get 0 - (t.getD j ⟨0, 0, 0⟩).get 0) ^ 2
        + ((s.getD i ⟨0, 0, 0⟩).get 1 - (t.getD j ⟨0, 0, 0⟩).get 1) ^ 2
        + ((s.getD i ⟨0, 0, 0⟩).get 2 - (t.getD j ⟨0, 0, 0⟩).get 2) ^ 2) : α) : WithTop α)
      + min (dtwRecurrence sqrt s t i (j + 1))
          (min (dtwRecurrence sqrt s t (i + 1) j) (dtwRecurrence sqrt s t i j))
termination_by i j => i + j
decreasing_by all_goals omega

end Dtw

/-! ## The `float` arithmetic of the target

The scoring functions of `main.cpp` compute in `float`. The definitions above
embed them over an ordered field, which settles what does not depend on the
values (lengths, `err`, the control flow of the decision); the definitions
below embed the same functions over the `float` type of the target, IEEE 754
binary32 with round to nearest even, one rounding for each operation the
source writes, and settle the claims on the values. -/

section Binary32

/-- A `float` of the target, an IEEE 754 binary32 value: NaN, an infinity, or
the finite value `(-1)^neg * m * 2^e` with `m < 2^24` and `-149 ≤ e ≤ 104`,
where `m ≥ 2^23` unless `e = -149`. Zero is `m = 0`, with a sign. -/
inductive F32 where
  | finite (neg : Bool) (m : Nat) (e : Int)
  | inf (neg : Bool)
  | nan
deriving DecidableEq

/-- The position of the leading bit of `n`, by halving at most `k` times:
`floor (log2 n)` for `0 < n < 2 ^ (k + 1)`. -/
def F32.leadingBit : Nat → Nat → Nat
  | 0, _ => 0
  | k + 1, n => if n < 2 then 0 else F32.leadingBit k (n / 2) + 1

/-- The binary32 value nearest to `(-1)^neg * (p / q) * 2^k` for `q > 0`,
ties to the even significand, with overflow to infinity. -/
def F32.round (neg : Bool) (p q : Nat) (k : Int) : F32 :=
  if p = 0 then F32.finite neg 0 (-149)
  else
    let d : Int := (F32.leadingBit 320 p : Int) - (F32.leadingBit 320 q : Int)
    let l : Int := if q * 2 ^ d.toNat ≤ p * 2 ^ (-d).toNat then d else d - 1
    let e : Int := max (l + k - 23) (-149)
    let s : Int := k - e
    let n : Nat := p * 2 ^ s.toNat
    let c : Nat := q * 2 ^ (-s).toNat
    let m0 : Nat := n / c
    let r : Nat := n % c
    let m : Nat := if c < 2 * r ∨ (2 * r = c ∧ m0 % 2 = 1) then m0 + 1 else m0
    let m1 : Nat := if m = 2 ^ 24 then 2 ^ 23 else m
    let e1 : Int := if m = 2 ^ 24 then e + 1 else e
    if 104 < e1 then F32.inf neg else F32.finite neg m1 e1

/-- The integer `(-1)^neg * m * 2^sh`. -/
def F32.scaled (neg : Bool) (m : Nat) (sh : Int) : Int :=
  if neg then -((m * 2 ^ sh.toNat : Nat) : Int) else ((m * 2 ^ sh.toNat : Nat) : Int)

/-- The binary32 sum `a + b`. -/
def F32.add : F32 → F32 → F32
  | F32.nan, _ => F32.nan
  | _, F32.nan => F32.nan
  | F32.inf s1, F32.inf s2 => if s1 = s2 then F32.inf s1 else F32.nan
  | F32.inf s1, F32.finite _ _ _ => F32.inf s1
  | F32.finite _ _ _, F32.inf s2 => F32.inf s2
  | F32.finite s1 m1 e1, F32.finite s2 m2 e2 =>
    let e := min e1 e2
    let i := F32.scaled s1 m1 (e1 - e) + F32.scaled s2 m2 (e2 - e)
    if i = 0 then F32.finite (s1 && s2) 0 (-149)
    else F32.round (decide (i < 0)) i.natAbs 1 e

/-- The binary32 negation `-a`. -/
def F32.neg : F32 → F32
  | F32.nan => F32.nan
  | F32.inf s => F32.inf (!s)
  | F32.finite s m e => F32.finite (!s) m e

/-- The binary32 difference `a - b`. -/
def F32.sub (a b : F32) : F32 := F32.add a (F32.neg b)

/-- The binary32 product `a * b`. -/
def F32.mul : F32 → F32 → F32
  | F32.nan, _ => F32.nan
  | _, F32.nan => F32.nan
  | F32.inf s1, F32.inf s2 => F32.inf (xor s1 s2)
  | F32.inf s1, F32.finite s2 m2 _ => if m2 = 0 then F32.nan else F32.inf (xor s1 s2)
  | F32.finite s1 m1 _, F32.inf s2 => if m1 = 0 then F32.nan else F32.inf (xor s1 s2)
  | F32.finite s1 m1 e1, F32.finite s2 m2 e2 => F32.round (xor s1 s2) (m1 * m2) 1 (e1 + e2)

/-- The binary32 quotient `a / b`; a division by zero gives an infinity, or
NaN for `0 / 0`. -/
def F32.div : F32 → F32 → F32
  | F32.nan, _ => F32.nan
  | _, F32.nan => F32.nan
  | F32.inf _, F32.inf _ => F32.nan
  | F32.inf s1, F32.finite s2 _ _ => F32.inf (xor s1 s2)
  | F32.finite s1 _ _, F32.inf s2 => F32.finite (xor s1 s2) 0 (-149)
  | F32.finite s1 m1 e1, F32.finite s2 m2 e2 =>
    if m2 = 0 then (if m1 = 0 then F32.nan else F32.inf (xor s1 s2))
    else F32.round (xor s1 s2) m1 m2 (e1 - e2)

/-- The integer square root of `n` by bisection on the bits below `bits`,
from the approximation `acc`. -/
def F32.isqrt (n : Nat) : Nat → Nat → Nat
  | 0, acc => acc
  | bits + 1, acc =>
    F32.isqrt n bits (if (acc + 2 ^ bits) * (acc + 2 ^ bits) ≤ n then acc + 2 ^ bits else acc)

/-- The binary32 square root `sqrt(a)`, correctly rounded; NaN for a negative
argument. -/
def F32.sqrt : F32 → F32
  | F32.nan => F32.nan
  | F32.inf s => if s then F32.nan else F32.inf false
  | F32.finite s m e =>
    if m = 0 then F32.finite s 0 (-149)
    else if s then F32.nan
    else
      let m2 : Nat := if e % 2 = 0 then m else 2 * m
      let e2 : Int := if e % 2 = 0 then e else e - 1
      let n : Nat := m2 * 4 ^ 32
      let r : Nat := F32.isqrt n 46 0
      let sticky : Nat := if r * r = n then 0 else 1
      F32.round false (2 * r + sticky) 1 (e2 / 2 - 33)

/-- The binary32 comparison `a > b`; false when an operand is NaN. -/
def F32.gt : F32 → F32 → Bool
  | F32.nan, _ => false
  | _, F32.nan => false
  | F32.inf s1, F32.inf s2 => !s1 && s2
  | F32.inf s1, F32.finite _ _ _ => !s1
  | F32.finite _ _ _, F32.inf s2 => s2
  | F32.finite s1 m1 e1, F32.finite s2 m2 e2 =>
    decide (F32.scaled s2 m2 (e2 - min e1 e2) < F32.scaled s1 m1 (e1 - min e1 e2))

/-- The conversion of a `size_t` value to `float`. -/
def F32.ofNat (n : Nat) : F32 := F32.round false n 1 0

/-- The `float` value of the decimal literal `p / q`. -/
def F32.ofRat (p q : Nat) : F32 := F32.round false p q 0

/-- Whether a binary32 value is a zero of either sign. -/
def F32.isZero : F32 → Bool
  | F32.finite _ m _ => decide (m = 0)
  | _ => false

/-- Whether a binary32 value is finite. -/
def F32.isFinite : F32 → Bool
  | F32.finite _ _ _ => true
  | _ => false

/-- Whether a binary32 value is a zero of either sign or NaN. -/
def F32.zeroOrNaN : F32 → Bool
  | F32.finite _ m _ => decide (m = 0)
  | F32.inf _ => false
  | F32.nan => true

/-- The rational number that a finite binary32 value stands for (0 for the
infinities and NaN). -/
def F32.toRat : F32 → ℚ
  | F32.finite neg m e => (if neg then -1 else 1) * (m : ℚ) * (2 : ℚ) ^ e
  | _ => 0

/-- Constant `CORRELATION_THRESHOLD` as a `float`, the literal `0.0005f`. -/
def F32.CORRELATION_THRESHOLD : F32 := F32.ofRat 5 10000

/-- The frame `{x, y, z}` of the `float` values of three unsigned integers. -/
def F32.frame (x y z : Nat) : Array3 F32 := ⟨F32.ofNat x, F32.ofNat y, F32.ofNat z⟩

/-- The frame `{v, v, v}` with the `float` value `v` of the decimal `p / q`
on each axis. -/
def F32.sample (p q : Nat) : Array3 F32 := ⟨F32.ofRat p q, F32.ofRat p q, F32.ofRat p q⟩

end Binary32

section FloatScoring

/-- The `float` operations that the scoring code uses, on a type `F` of
`float` values: the literal zero, the conversion of a `size_t`, the four
arithmetic operations, `sqrt` and the comparison `>`. -/
structure FloatArith (F : Type) where
  zero : F
  ofNat : Nat → F
  add : F → F → F
  sub : F → F → F
  mul : F → F → F
  div : F → F → F
  sqrt : F → F
  gt : F → F → Bool

/-- The `float` arithmetic of the target: IEEE 754 binary32, round to
nearest even, each operation rounded on its own (a product is rounded before
it is added to an accumulator). -/
def binary32 : FloatArith F32 where
  zero := F32.finite false 0 (-149)
  ofNat := F32.ofNat
  add := F32.add
  sub := F32.sub
  mul := F32.mul
  div := F32.div
  sqrt := F32.sqrt
  gt := F32.gt

namespace FloatArith

variable {F : Type} (A : FloatArith F)

/-- The sum of an array as a loop `s += x` accumulates it: from zero, one
element after the other in index order. -/
def sum (l : List F) : F := l.foldl A.add A.zero

/-- The body of the loop of `correlation` at index `i`, in the arithmetic
`A`. -/
def corrStep (a b : List F) (s : CorrSums F) (i : Nat) : CorrSums F :=
  { sum_a := A.add s.sum_a (a.getD i A.zero)
    sum_b := A.add s.sum_b (b.getD i A.zero)
    sum_ab := A.add s.sum_ab (A.mul (a.getD i A.zero) (b.getD i A.zero))
    sq_sum_a := A.add s.sq_sum_a (A.mul (a.getD i A.zero) (a.getD i A.zero))
    sq_sum_b := A.add s.sq_sum_b (A.mul (b.getD i A.zero) (b.getD i A.zero)) }

/-- The loop `for (size_t i = 0; i < a.size(); ++i)` of `correlation`, in the
arithmetic `A`. -/
def corrSums (a b : List F) : CorrSums F :=
  (List.range a.length).foldl (A.corrStep a b) ⟨A.zero, A.zero, A.zero, A.zero, A.zero⟩

/-- The local `numerator` of `correlation`, in the arithmetic `A`. -/
def numerator (a b : List F) : F :=
  let s := A.corrSums a b
  A.sub (A.mul (A.ofNat a.length) s.sum_ab) (A.mul s.sum_a s.sum_b)

/-- The local `denominator` of `correlation`, in the arithmetic `A`. -/
def denominator (a b : List F) : F :=
  let s := A.corrSums a b
  A.sqrt (A.mul (A.sub (A.mul (A.ofNat a.length) s.sq_sum_a) (A.mul s.sum_a s.sum_a))
    (A.sub (A.mul (A.ofNat a.length) s.sq_sum_b) (A.mul s.sum_b s.sum_b)))

/-- Function `correlation` in the arithmetic `A`: the returned value and the
global `err` after the call. -/
def correlation (err : Int) (a b : List F) : F × Int :=
  if a.length ≠ b.length then (A.zero, -1)
  else (A.div (A.numerator a b) (A.denominator a b), err)

/-- Member `vector::resize(n, v)` of a `vector<float>`: the first `n`
elements, followed by copies of `v` when the vector is shorter than `n`. -/
def resize (l : List F) (n : Nat) (v : F) : List F :=
  l.take n ++ List.replicate (n - l.length) v

/-- The vectors `a` and `b` that `calculateCorrelationVectors` passes to
`correlation` for axis `i`, in the arithmetic `A`. -/
def axisVectors (vec1 vec2 : List (Array3 F)) (i : Fin 3) : List F × List F :=
  let a := vec1.map fun arr => arr.get i
  let b := vec2.map fun arr => arr.get i
  if a.length > b.length then (resize a b.length A.zero, b)
  else if b.length > a.length then (a, resize b a.length A.zero)
  else (a, b)

/-- Function `calculateCorrelationVectors` in the arithmetic `A`: the
returned array and the global `err` after the call. -/
def calculateCorrelationVectors (err : Int) (vec1 vec2 : List (Array3 F)) :
    Array3 F × Int :=
  let r0 := A.correlation err (A.axisVectors vec1 vec2 0).1 (A.axisVectors vec1 vec2 0).2
  let r1 := A.correlation r0.2 (A.axisVectors vec1 vec2 1).1 (A.axisVectors vec1 vec2 1).2
  let r2 := A.correlation r1.2 (A.axisVectors vec1 vec2 2).1 (A.axisVectors vec1 vec2 2).2
  (⟨r0.1, r1.1, r2.1⟩, r2.2)

/-- The loop over `correlationResult` that counts the axes whose value
compares greater than `thr`, the value of `CORRELATION_THRESHOLD`. -/
def countAbove (thr : F) (correlationResult : Array3 F) : Nat :=
  (List.finRange 3).foldl
    (fun unlock i => if A.gt (correlationResult.get i) thr then unlock + 1 else unlock) 0

/-- The local `unlock` after the `if (err != 0) ... else ...` statement, in
the arithmetic `A`. -/
def unlockCounter (thr : F) (err : Int) (correlationResult : Array3 F) : Nat :=
  if err ≠ 0 then 0 else A.countAbove thr correlationResult

/-- The branch `else if (flag_check & UNLOCK_FLAG)` of `gyroscope_thread` in
the arithmetic `A`, with `thr` the value of `CORRELATION_THRESHOLD`, entered
with the trimmed capture `temp_key`. -/
def unlockBranch (thr : F) (st : EngineState F) (temp_key : List (Array3 F)) :
    EngineState F × Status :=
  let st := { st with unlocking_record := temp_key }
  if st.gesture_key.isEmpty then
    ({ st with unlocking_record := [] }, Status.noKeySaved)
  else
    let r := A.calculateCorrelationVectors st.err st.gesture_key st.unlocking_record
    let st := { st with err := r.2 }
    let unlock := A.unlockCounter thr st.err r.1
    ({ st with unlocking_record := [] }, unlockStatus unlock)

/-- The formula
`(n Σ aᵢbᵢ − Σ aᵢ Σ bᵢ) / sqrt ((n Σ aᵢ² − (Σ aᵢ)²) (n Σ bᵢ² − (Σ bᵢ)²))`
evaluated in the arithmetic `A`, with `n` the length of `a` and every sum
accumulated from zero in index order. -/
def pearson (a b : List F) : F :=
  A.div (A.sub (A.mul (A.ofNat a.length) (A.sum (List.zipWith A.mul a b)))
      (A.mul (A.sum a) (A.sum b)))
    (A.sqrt (A.mul
      (A.sub (A.mul (A.ofNat a.length) (A.sum (a.map fun x => A.mul x x)))
        (A.mul (A.sum a) (A.sum a)))
      (A.sub (A.mul (A.ofNat a.length) (A.sum (b.map fun x => A.mul x x)))
        (A.mul (A.sum b) (A.sum b)))))

end FloatArith

/-- The exact variance term `n Σ x² − (Σ x)²` of an array of finite `float`
values, as a rational number. -/
def exactVarianceTerm (a : List F32) : ℚ :=
  (a.length : ℚ) * ((a.map F32.toRat).map (· ^ 2)).sum - (a.map F32.toRat).sum ^ 2

end FloatScoring


/-! ## Calibration: auxiliary facts -/

theorem wrap16_of_mem {x : Int} (h₁ : -32768 ≤ x) (h₂ : x ≤ 32767) : wrap16 x = x := by
  unfold wrap16; omega

theorem wrap16_add_left (a b : Int) : wrap16 (wrap16 a + b) = wrap16 (a + b) := by
  unfold wrap16; omega

theorem foldl_max_assoc (a b : Int) (l : List Int) :
    l.foldl max (max a b) = max a (l.foldl max b) := by
  induction l generalizing b with
  | nil => rfl
  | cons x xs ih => simp only [List.foldl_cons, max_assoc, ih]

/-- The loop over any list of read indices: thresholds are running maxima and
the sums are the wrapped exact sums. -/
theorem calibrate_foldl (sensor : Nat → Gyroscope_RawData) (l : List Nat) (c : CalibLoop) :
    l.foldl (fun c i => calibrateStep c (sensor i)) c =
      { sumX := if l = [] then c.sumX else wrap16 (c.sumX + (l.map fun i => (sensor i).x_raw).sum)
        sumY := if l = [] then c.sumY else wrap16 (c.sumY + (l.map fun i => (sensor i).y_raw).sum)
        sumZ := if l = [] then c.sumZ else wrap16 (c.sumZ + (l.map fun i => (sensor i).z_raw).sum)
        x_threshold := (l.map fun i => (sensor i).x_raw).foldl max c.x_threshold
        y_threshold := (l.map fun i => (sensor i).y_raw).foldl max c.y_threshold
        z_threshold := (l.map fun i => (sensor i).z_raw).foldl max c.z_threshold } := by
  induction l generalizing c with
  | nil => simp
  | cons i is ih =>
    rw [List.foldl_cons, ih]
    by_cases h : is = []
    · subst h; simp [calibrateStep]
    · simp [calibrateStep, h, wrap16_add_left, add_assoc]

theorem range_128 : List.range 128 = 0 :: (List.range 127).map (· + 1) := by
  decide

theorem foldl_max_range (f : Nat → Int) (t : Int) :
    ((List.range 128).map f).foldl max t = max t (burstMax f) := by
  rw [range_128, burstMax, List.map_cons, List.foldl_cons, foldl_max_assoc, List.map_map]
  rfl

theorem calibrateLoop_eq (st : GyroState) (sensor : Nat → Gyroscope_RawData) :
    calibrateLoop st sensor =
      { sumX := wrap16 (burstSum fun i => (sensor i).x_raw)
        sumY := wrap16 (burstSum fun i => (sensor i).y_raw)
        sumZ := wrap16 (burstSum fun i => (sensor i).z_raw)
        x_threshold := max st.x_threshold (burstMax fun i => (sensor i).x_raw)
        y_threshold := max st.y_threshold (burstMax fun i => (sensor i).y_raw)
        z_threshold := max st.z_threshold (burstMax fun i => (sensor i).z_raw) } := by
  have h : List.range 128 ≠ [] := by decide
  rw [calibrateLoop, calibrate_foldl]
  simp only [h, if_false, zero_add, foldl_max_range, burstSum]

theorem burstSum_const (v : Int) : burstSum (fun _ => v) = 128 * v := by
  have h : ∀ l : List Nat, (l.map fun _ => v).sum = l.length * v := by
    intro l; simp
  rw [burstSum, h, List.length_range]
  rfl

theorem burstMax_const (v : Int) : burstMax (fun _ => v) = v := by
  unfold burstMax
  generalize List.range 127 = l
  induction l with
  | nil => rfl
  | cons x xs ih => simpa using ih

theorem offset_of_small (v : Int) (h₁ : -256 ≤ v) (h₂ : v ≤ 255) :
    wrap16 (wrap16 (128 * v) >>> (7 : Nat)) = v := by
  have h : wrap16 (128 * v) = 128 * v := wrap16_of_mem (by omega) (by omega)
  rw [h, Int.shiftRight_eq_div_pow]
  have : (128 * v) / ((2 ^ 7 : Nat) : Int) = v := by norm_num
  rw [this]
  exact wrap16_of_mem (by omega) (by omega)

/-! ## Trimming: auxiliary facts -/

section TrimLemmas

variable {α : Type} [LinearOrderedField α]

theorem scanForward_le (data : List (Array3 α)) : scanForward data ≤ data.length := by
  induction data with
  | nil => simp [scanForward]
  | cons f rest ih =>
    simp only [scanForward, List.length_cons]
    split <;> omega

theorem scanForward_eq_length {data : List (Array3 α)}
    (h : ∀ f ∈ data, withinThreshold f = true) : scanForward data = data.length := by
  induction data with
  | nil => rfl
  | cons f rest ih =>
    have hf : withinThreshold f = true := h f (List.mem_cons_self _ _)
    have hr : ∀ g ∈ rest, withinThreshold g = true := fun g hg => h g (List.mem_cons_of_mem _ hg)
    simp [scanForward, hf, ih hr]

theorem scanForward_eq_first : ∀ (data : List (Array3 α)) (L : Nat),
    L < data.length → (∀ i, i < L → withinThreshold (data.getD i ⟨0, 0, 0⟩) = true) →
    withinThreshold (data.getD L ⟨0, 0, 0⟩) = false → scanForward data = L
  | [], L, hL, _, _ => by simp at hL
  | f :: rest, 0, _, _, h0 => by
    have : withinThreshold f = false := by simpa using h0
    simp [scanForward, this]
  | f :: rest, L + 1, hL, hpre, hLf => by
    have hf : withinThreshold f = true := by simpa using hpre 0 (Nat.succ_pos L)
    have ih := scanForward_eq_first rest L (by simpa using hL)
      (fun i hi => by simpa using hpre (i + 1) (Nat.succ_lt_succ hi)) (by simpa using hLf)
    simp [scanForward, hf, ih]

theorem scanBackward_eq_last (data : List (Array3 α)) (R : Nat)
    (hR : withinThreshold (data.getD R ⟨0, 0, 0⟩) = false) : ∀ (p : Nat), R ≤ p →
    (∀ i, R < i → i ≤ p → withinThreshold (data.getD i ⟨0, 0, 0⟩) = true) →
    scanBackward data p = R
  | 0, hp, _ => by
    have : R = 0 := by omega
    simp [scanBackward, this]
  | p + 1, hp, hpost => by
    rcases Nat.lt_or_ge R (p + 1) with h | h
    · have hw := hpost (p + 1) h (le_refl _)
      have ih := scanBackward_eq_last data R hR p (by omega)
        (fun i h₁ h₂ => hpost i h₁ (by omega))
      simp only [scanBackward, hw, if_true, ih]
    · have : R = p + 1 := by omega
      subst this
      simp only [scanBackward, hR]
      simp

theorem copyLoop_spec (rptr : Nat) : ∀ (n : Nat) (data : List (Array3 α)) (rp lp : Nat),
    rptr + 1 - lp = n → rp < lp → lp ≤ rptr + 1 → rptr < data.length →
    ∃ out, copyLoop rptr data rp lp = (out, rp + n, rptr + 1) ∧
      out.take (rp + n) = data.take rp ++ (data.drop lp).take n
  | 0, data, rp, lp, hn, hlt, hle, _ => by
    have h : lp = rptr + 1 := by omega
    refine ⟨data, ?_, by simp⟩
    rw [copyLoop]
    simp [h]
  | n + 1, data, rp, lp, hn, hlt, hle, hlen => by
    have h₁ : rp ≠ lp ∧ lp ≤ rptr := ⟨by omega, by omega⟩
    obtain ⟨out, hd, htake⟩ := copyLoop_spec rptr n
      (data.set rp (data.getD lp ⟨0, 0, 0⟩)) (rp + 1) (lp + 1)
      (by omega) (by omega) (by omega) (by simpa using hlen)
    refine ⟨out, ?_, ?_⟩
    · rw [copyLoop, if_pos h₁, hd]
      congr 2
      omega
    · have e : rp + (n + 1) = rp + 1 + n := by omega
      rw [e, htake, List.drop_set_of_lt _ _ (by omega : rp < lp + 1)]
      have hlp : lp < data.length := by omega
      have hrp : rp < data.length := by omega
      have h₂ : (data.set rp (data.getD lp ⟨0, 0, 0⟩)).take (rp + 1)
          = data.take rp ++ [data.getD lp ⟨0, 0, 0⟩] := by
        apply List.ext_getElem?
        intro i
        simp only [List.getElem?_take, List.getElem?_set, List.getElem?_append, List.length_take]
        have : min rp data.length = rp := by omega
        rw [this]
        by_cases h₃ : i < rp
        · have : ¬ rp = i := by omega
          simp [h₃, this, Nat.lt_succ_of_lt h₃]
        · by_cases h₄ : i = rp
          · subst h₄; simp [hrp]
          · have : ¬ i < rp + 1 := by omega
            simp [h₃, this]
            omega
      have h₅ : List.take (n + 1) (List.drop lp data)
          = data.getD lp ⟨0, 0, 0⟩ :: List.take n (List.drop (lp + 1) data) := by
        rw [List.drop_eq_getElem_cons hlp, List.take_succ_cons, List.getD_eq_getElem _ _ hlp]
      rw [h₂, h₅]
      simp

end TrimLemmas

section TrimResults

variable {α : Type} [LinearOrderedField α]

theorem trim_of_all_within {data : List (Array3 α)}
    (h : ∀ f ∈ data, withinThreshold f = true) : trim_gyro_data data = data := by
  simp [trim_gyro_data, scanForward_eq_length h]

theorem trim_eq_slice (data : List (Array3 α)) (L R : Nat)
    (hL : L < data.length) (hR : R < data.length)
    (hpre : ∀ i, i < L → withinThreshold (data.getD i ⟨0, 0, 0⟩) = true)
    (hfirst : withinThreshold (data.getD L ⟨0, 0, 0⟩) = false)
    (hlast : withinThreshold (data.getD R ⟨0, 0, 0⟩) = false)
    (hpost : ∀ i, R < i → i < data.length → withinThreshold (data.getD i ⟨0, 0, 0⟩) = true) :
    trim_gyro_data data = (data.take (R + 1)).drop L := by
  have hLR : L ≤ R := by
    by_contra hc
    have := hpre R (by omega)
    rw [hlast] at this
    exact Bool.false_ne_true this
  have hfwd : scanForward data = L := scanForward_eq_first data L hL hpre hfirst
  have hbwd : scanBackward data (data.length - 1) = R :=
    scanBackward_eq_last data R hlast (data.length - 1) (by omega)
      (fun i h₁ h₂ => hpost i h₁ (by omega))
  have hne : ¬ L = data.length := by omega
  rcases Nat.eq_zero_or_pos L with h0 | hpos
  · subst h0
    have hc : copyLoop R data 0 0 = (data, 0, 0) := by
      rw [copyLoop]; simp
    simp [trim_gyro_data, hfwd, hbwd, hne, hc]
  · obtain ⟨out, hd, htake⟩ := copyLoop_spec R (R + 1 - L) data 0 L rfl hpos (by omega) hR
    have e : L + (R + 1 - L) = R + 1 := by omega
    simp only [trim_gyro_data, hfwd, hbwd, hne, if_false, hd, gt_iff_lt, Nat.lt_succ_self,
      if_true, htake, List.take_zero, List.nil_append, List.take_drop, e]

end TrimResults

/-! ## Scoring: auxiliary facts -/

section ScoringLemmas

variable {α : Type} [LinearOrderedField α]

/-- After `k` iterations the accumulators hold the sums over the first `k`
elements. -/
theorem corrSums_prefix (a b : List α) (hab : a.length = b.length) : ∀ k, k ≤ a.length →
    (List.range k).foldl (corrStep a b) ⟨0, 0, 0, 0, 0⟩ =
      { sum_a := (a.take k).sum
        sum_b := (b.take k).sum
        sum_ab := ((List.zipWith (· * ·) a b).take k).sum
        sq_sum_a := ((a.map (· ^ 2)).take k).sum
        sq_sum_b := ((b.map (· ^ 2)).take k).sum }
  | 0, _ => by simp
  | k + 1, hk => by
    have ha : k < a.length := hk
    have hb : k < b.length := hab ▸ hk
    have hz : k < (List.zipWith (· * ·) a b).length := by simp [← hab]; omega
    have hma : k < (a.map (· ^ 2)).length := by simpa using ha
    have hmb : k < (b.map (· ^ 2)).length := by simpa using hb
    rw [List.range_succ, List.foldl_append, corrSums_prefix a b hab k (Nat.le_of_lt hk)]
    simp only [List.foldl_cons, List.foldl_nil, corrStep, List.getD_eq_getElem _ _ ha,
      List.getD_eq_getElem _ _ hb, List.sum_take_succ _ _ ha, List.sum_take_succ _ _ hb,
      List.sum_take_succ _ _ hz, List.sum_take_succ _ _ hma, List.sum_take_succ _ _ hmb,
      List.getElem_zipWith, List.getElem_map]
    simp only [pow_two]

theorem corrSums_eq (a b : List α) (hab : a.length = b.length) :
    corrSums a b =
      { sum_a := a.sum
        sum_b := b.sum
        sum_ab := (List.zipWith (· * ·) a b).sum
        sq_sum_a := (a.map (· ^ 2)).sum
        sq_sum_b := (b.map (· ^ 2)).sum } := by
  rw [corrSums, corrSums_prefix a b hab a.length (le_refl _)]
  have h₁ : (List.zipWith (· * ·) a b).length ≤ a.length := by simp
  have h₂ : (b.map (· ^ 2)).length ≤ a.length := by simp [hab]
  have h₃ : b.length ≤ a.length := by omega
  rw [List.take_of_length_le (le_refl _), List.take_of_length_le h₃,
    List.take_of_length_le h₁, List.take_of_length_le (by simp), List.take_of_length_le h₂]

theorem correlation_eq_pearson (sqrt : α → α) (err : Int) (a b : List α)
    (hab : a.length = b.length) : correlation sqrt err a b = (pearson sqrt a b, err) := by
  simp only [correlation, hab, ne_eq, not_true_eq_false, if_false, numerator, denominator,
    corrSums_eq a b hab, pearson, pow_two]

theorem sum_sq_sub (x : α) (a : List α) :
    (a.map fun y => (x - y) ^ 2).sum
      = (a.length : α) * x ^ 2 - 2 * x * a.sum + (a.map (· ^ 2)).sum := by
  induction a with
  | nil => simp
  | cons y ys ih =>
    simp only [List.map_cons, List.sum_cons, ih, List.length_cons, Nat.cast_succ]
    ring

/-- The term `n Σ xᵢ² − (Σ xᵢ)²` is never negative. -/
theorem variance_term_nonneg (a : List α) :
    0 ≤ (a.length : α) * (a.map (· ^ 2)).sum - a.sum ^ 2 := by
  induction a with
  | nil => simp
  | cons x xs ih =>
    have h₁ : 0 ≤ (xs.map fun y => (x - y) ^ 2).sum :=
      List.sum_nonneg (by
        intro z hz
        obtain ⟨y, _, rfl⟩ := List.mem_map.mp hz
        exact sq_nonneg _)
    rw [sum_sq_sub] at h₁
    simp only [List.map_cons, List.sum_cons, List.length_cons, Nat.cast_succ]
    nlinarith [ih, h₁]

theorem axisVectors_of_length_eq (vec1 vec2 : List (Array3 α)) (i : Fin 3)
    (h : vec1.length = vec2.length) :
    axisVectors vec1 vec2 i = (axisOf vec1 i, axisOf vec2 i) := by
  simp [axisVectors, axisOf, h]

theorem axisVectors_length (vec1 vec2 : List (Array3 α)) (i : Fin 3) :
    (axisVectors vec1 vec2 i).1.length = (axisVectors vec1 vec2 i).2.length := by
  unfold axisVectors resize
  simp only [List.length_map]
  split
  · simp; omega
  · split
    · simp; omega
    · simp; omega

end ScoringLemmas

/-! ## Calibration and dead-band: results -/

section CalibrationResults

set_option maxRecDepth 100000

/-- Claim C7, the code at the failing input. A burst in which every read
returns 300 on every axis has the arithmetic mean 300 (sum 38400, truncated
division by 128), but the 16-bit accumulators wrap to -27136 and
`CalibrateGyroscope` leaves the offset -212 on every axis. -/
theorem C7_offset_of_constant_300_is_minus_212 :
    (CalibrateGyroscope GyroState.boot (constantBurst 300)).x_sample = -212 ∧
    (CalibrateGyroscope GyroState.boot (constantBurst 300)).y_sample = -212 ∧
    (CalibrateGyroscope GyroState.boot (constantBurst 300)).z_sample = -212 ∧
    Int.tdiv (burstSum fun i => (constantBurst 300 i).x_raw) 128 = 300 := by
  decide

/-- Claim C8 as stated fails. From the boot state, a burst that reads -5 on
every axis has the maximum -5 on every axis, and the threshold after the
calibration is 0; with a threshold of 1000 left by an earlier calibration, a
burst that reads 7 everywhere leaves the threshold at 1000. -/
theorem C8_threshold_not_burst_maximum :
    (CalibrateGyroscope GyroState.boot (constantBurst (-5))).x_threshold = 0 ∧
    burstMax (fun i => (constantBurst (-5) i).x_raw) = -5 ∧
    (CalibrateGyroscope ⟨1000, 1000, 1000, 0, 0, 0⟩ (constantBurst 7)).x_threshold = 1000 ∧
    burstMax (fun i => (constantBurst 7 i).x_raw) = 7 := by
  decide

/-- Claim C8, amended. After `CalibrateGyroscope` the threshold of each axis
is the larger of its value before the call and the maximum raw value of that
axis among the 128 samples of the burst. -/
theorem C8_threshold_is_max_of_previous_and_burst (st : GyroState)
    (sensor : Nat → Gyroscope_RawData) :
    (CalibrateGyroscope st sensor).x_threshold
      = max st.x_threshold (burstMax fun i => (sensor i).x_raw) ∧
    (CalibrateGyroscope st sensor).y_threshold
      = max st.y_threshold (burstMax fun i => (sensor i).y_raw) ∧
    (CalibrateGyroscope st sensor).z_threshold
      = max st.z_threshold (burstMax fun i => (sensor i).z_raw) := by
  simp only [CalibrateGyroscope, calibrateLoop_eq, and_self]

/-- Claim C9 as stated fails. From the boot state, a burst that reads -300
on every axis leaves the offset 212 and the threshold 0 on every axis. -/
theorem C9_constant_minus_300 :
    (CalibrateGyroscope GyroState.boot (constantBurst (-300))).x_sample = 212 ∧
    (CalibrateGyroscope GyroState.boot (constantBurst (-300))).y_sample = 212 ∧
    (CalibrateGyroscope GyroState.boot (constantBurst (-300))).z_sample = 212 ∧
    (CalibrateGyroscope GyroState.boot (constantBurst (-300))).x_threshold = 0 ∧
    (CalibrateGyroscope GyroState.boot (constantBurst (-300))).y_threshold = 0 ∧
    (CalibrateGyroscope GyroState.boot (constantBurst (-300))).z_threshold = 0 := by
  decide

/-- Claim C9, amended. A burst in which all 128 samples read `v` on every
axis leaves on every axis the threshold `max t v`, where `t` is the threshold
of that axis before the call, and, when `-256 ≤ v ≤ 255`, the offset `v`. -/
theorem C9_constant_burst (st : GyroState) (v : Int) :
    ((CalibrateGyroscope st (constantBurst v)).x_threshold = max st.x_threshold v ∧
      (CalibrateGyroscope st (constantBurst v)).y_threshold = max st.y_threshold v ∧
      (CalibrateGyroscope st (constantBurst v)).z_threshold = max st.z_threshold v) ∧
    (-256 ≤ v → v ≤ 255 →
      (CalibrateGyroscope st (constantBurst v)).x_sample = v ∧
      (CalibrateGyroscope st (constantBurst v)).y_sample = v ∧
      (CalibrateGyroscope st (constantBurst v)).z_sample = v) := by
  simp only [CalibrateGyroscope, calibrateLoop_eq, constantBurst, burstMax_const,
    burstSum_const, true_and, and_self]
  intro h₁ h₂
  exact offset_of_small v h₁ h₂

/-- Claim C9, amended, at the boot state and `v = 5`. -/
theorem C9_constant_burst_witness :
    (CalibrateGyroscope GyroState.boot (constantBurst 5)).x_sample = 5 ∧
    (CalibrateGyroscope GyroState.boot (constantBurst 5)).y_sample = 5 ∧
    (CalibrateGyroscope GyroState.boot (constantBurst 5)).z_sample = 5 :=
  (C9_constant_burst GyroState.boot 5).2 (by decide) (by decide)

/-- Claim C10. `GetCalibratedRawData` leaves in each axis the value obtained
from `d = raw - offset` (as stored in 16 bits) of that axis: zero when
`|d| < |threshold|`, and `d` itself otherwise, each axis with its own offset
and threshold. -/
theorem C10_dead_band_per_axis (st : GyroState) (reading : Gyroscope_RawData) :
    (GetCalibratedRawData st reading).x_raw =
      (if |wrap16 (reading.x_raw - st.x_sample)| < |st.x_threshold| then 0
        else wrap16 (reading.x_raw - st.x_sample)) ∧
    (GetCalibratedRawData st reading).y_raw =
      (if |wrap16 (reading.y_raw - st.y_sample)| < |st.y_threshold| then 0
        else wrap16 (reading.y_raw - st.y_sample)) ∧
    (GetCalibratedRawData st reading).z_raw =
      (if |wrap16 (reading.z_raw - st.z_sample)| < |st.z_threshold| then 0
        else wrap16 (reading.z_raw - st.z_sample)) := by
  unfold GetCalibratedRawData
  refine ⟨?_, ?_, ?_⟩ <;> (simp only []; split_ifs <;> rfl)

end CalibrationResults

/-! ## Trimming: claims -/

section TrimClaims

variable {α : Type} [LinearOrderedField α]

/-- Claim C3. When `L` is the index of the first frame of `data` that fails
the near-zero test and `R` the index of the last one, `trim_gyro_data` leaves
exactly the frames `L..R` of the input, in their order, the near-zero frames
between them included. -/
theorem C3_trim_keeps_first_to_last (data : List (Array3 α)) (L R : Nat)
    (hL : L < data.length) (hR : R < data.length)
    (hpre : ∀ i, i < L → withinThreshold (data.getD i ⟨0, 0, 0⟩) = true)
    (hfirst : withinThreshold (data.getD L ⟨0, 0, 0⟩) = false)
    (hlast : withinThreshold (data.getD R ⟨0, 0, 0⟩) = false)
    (hpost : ∀ i, R < i → i < data.length → withinThreshold (data.getD i ⟨0, 0, 0⟩) = true) :
    trim_gyro_data data = (data.take (R + 1)).drop L :=
  trim_eq_slice data L R hL hR hpre hfirst hlast hpost

/-- Claim C3 on `[0, 0, m, 0, n, 0, 0]` with `m = (1, 0, 0)` and
`n = (0, -2, 0)`: the result is `[m, 0, n]`. -/
theorem C3_trim_keeps_first_to_last_witness :
    trim_gyro_data ([⟨0, 0, 0⟩, ⟨0, 0, 0⟩, ⟨1, 0, 0⟩, ⟨0, 0, 0⟩, ⟨0, -2, 0⟩, ⟨0, 0, 0⟩,
        ⟨0, 0, 0⟩] : List (Array3 ℚ))
      = [⟨1, 0, 0⟩, ⟨0, 0, 0⟩, ⟨0, -2, 0⟩] :=
  C3_trim_keeps_first_to_last _ 2 4 (by decide) (by decide)
    (by intro i hi; interval_cases i <;> norm_num [withinThreshold, Array3.get, threshold])
    (by norm_num [withinThreshold, Array3.get, threshold])
    (by norm_num [withinThreshold, Array3.get, threshold])
    (by
      intro i h₁ h₂
      simp only [List.length_cons, List.length_nil] at h₂
      interval_cases i <;> norm_num [withinThreshold, Array3.get, threshold])

/-- Claim C4. A sequence in which every frame has its three axis magnitudes
below the threshold, the empty sequence included, is returned unchanged by
`trim_gyro_data`. -/
theorem C4_trim_all_below_unchanged (data : List (Array3 α))
    (h : ∀ f ∈ data, |f.get 0| < threshold ∧ |f.get 1| < threshold ∧ |f.get 2| < threshold) :
    trim_gyro_data data = data := by
  apply trim_of_all_within
  intro f hf
  obtain ⟨h0, h1, h2⟩ := h f hf
  simp [withinThreshold, le_of_lt h0, le_of_lt h1, le_of_lt h2]

/-- Claim C4 on a sequence of two frames below the threshold. -/
theorem C4_trim_all_below_unchanged_witness :
    trim_gyro_data ([⟨0, 0, 0⟩, ⟨1 / 1000000000, 0, 0⟩] : List (Array3 ℚ))
      = [⟨0, 0, 0⟩, ⟨1 / 1000000000, 0, 0⟩] :=
  C4_trim_all_below_unchanged _ (by norm_num [Array3.get, threshold, abs_of_pos])

end TrimClaims

/-! ## Scoring and the unlock decision: claims -/

section ScoringClaims

variable {α : Type} [LinearOrderedField α]

theorem finRange_three : List.finRange 3 = [0, 1, 2] := by
  decide

theorem forall_fin_three (P : Fin 3 → Prop) : (∀ i, P i) ↔ P 0 ∧ P 1 ∧ P 2 := by
  constructor
  · intro h
    exact ⟨h 0, h 1, h 2⟩
  · rintro ⟨h0, h1, h2⟩ i
    fin_cases i <;> assumption

theorem exists_fin_three (P : Fin 3 → Prop) : (∃ i, P i) ↔ P 0 ∨ P 1 ∨ P 2 := by
  constructor
  · rintro ⟨i, hi⟩
    fin_cases i
    · exact Or.inl hi
    · exact Or.inr (Or.inl hi)
    · exact Or.inr (Or.inr hi)
  · rintro (h | h | h)
    · exact ⟨0, h⟩
    · exact ⟨1, h⟩
    · exact ⟨2, h⟩

theorem countAbove_eq_three (r : Array3 (FloatVal α)) :
    countAbove r = 3 ↔ ∀ i : Fin 3, (r.get i).gt CORRELATION_THRESHOLD = true := by
  rw [forall_fin_three]
  simp only [countAbove, finRange_three, List.foldl_cons, List.foldl_nil]
  generalize (r.get 0).gt CORRELATION_THRESHOLD = b0
  generalize (r.get 1).gt CORRELATION_THRESHOLD = b1
  generalize (r.get 2).gt CORRELATION_THRESHOLD = b2
  cases b0 <;> cases b1 <;> cases b2 <;> simp

theorem unlockBranch_status_of_key (sqrt : α → α) (st : EngineState α)
    (temp_key : List (Array3 α)) (hkey : st.gesture_key ≠ []) :
    (unlockBranch sqrt st temp_key).2 =
      unlockStatus (unlockCounter (calculateCorrelationVectors sqrt st.err st.gesture_key temp_key).2
        (calculateCorrelationVectors sqrt st.err st.gesture_key temp_key).1) := by
  simp [unlockBranch, hkey]

/-- Claim C1. In the unlock branch, with a reference key present and `err`
equal to zero after scoring, the attempt is accepted exactly when each of the
three correlations returned by `calculateCorrelationVectors` is strictly
greater than 0.0005, and is rejected otherwise; on finite correlations
`c0, c1, c2` the decision is `0.0005 < c0 ∧ 0.0005 < c1 ∧ 0.0005 < c2`, and
the correlations 0.9, 0.9, 0.0001 in any axis order give reject. -/
theorem C1_accept_iff_all_three_above (sqrt : α → α) (st : EngineState α)
    (temp_key : List (Array3 α)) (hkey : st.gesture_key ≠ [])
    (herr : (calculateCorrelationVectors sqrt st.err st.gesture_key temp_key).2 = 0) :
    ((unlockBranch sqrt st temp_key).2 = Status.unlockSuccess ↔
      ∀ i : Fin 3, ((calculateCorrelationVectors sqrt st.err st.gesture_key temp_key).1.get i).gt
        CORRELATION_THRESHOLD = true) ∧
    ((unlockBranch sqrt st temp_key).2 = Status.unlockFailed ↔
      ∃ i : Fin 3, ((calculateCorrelationVectors sqrt st.err st.gesture_key temp_key).1.get i).gt
        CORRELATION_THRESHOLD = false) ∧
    (∀ c0 c1 c2 : α,
      unlockStatus (unlockCounter 0 ⟨FloatVal.fin c0, FloatVal.fin c1, FloatVal.fin c2⟩)
          = Status.unlockSuccess ↔
        (5 / 10000 < c0 ∧ 5 / 10000 < c1 ∧ 5 / 10000 < c2)) ∧
    unlockStatus (unlockCounter 0
      (⟨FloatVal.fin (9 / 10), FloatVal.fin (9 / 10), FloatVal.fin (1 / 10000)⟩ :
        Array3 (FloatVal α))) = Status.unlockFailed ∧
    unlockStatus (unlockCounter 0
      (⟨FloatVal.fin (9 / 10), FloatVal.fin (1 / 10000), FloatVal.fin (9 / 10)⟩ :
        Array3 (FloatVal α))) = Status.unlockFailed ∧
    unlockStatus (unlockCounter 0
      (⟨FloatVal.fin (1 / 10000), FloatVal.fin (9 / 10), FloatVal.fin (9 / 10)⟩ :
        Array3 (FloatVal α))) = Status.unlockFailed := by
  have hfin : ∀ c0 c1 c2 : α,
      unlockStatus (unlockCounter 0 ⟨FloatVal.fin c0, FloatVal.fin c1, FloatVal.fin c2⟩)
          = Status.unlockSuccess ↔
        (5 / 10000 < c0 ∧ 5 / 10000 < c1 ∧ 5 / 10000 < c2) := by
    intro c0 c1 c2
    have h := countAbove_eq_three (⟨FloatVal.fin c0, FloatVal.fin c1, FloatVal.fin c2⟩ :
      Array3 (FloatVal α))
    simp only [forall_fin_three, Array3.get, FloatVal.gt, decide_eq_true_eq,
      CORRELATION_THRESHOLD] at h
    simp only [unlockStatus, unlockCounter, ne_eq, not_true_eq_false, if_false]
    rw [← h]
    split_ifs with h3 <;> simp [h3]
  have hrej : ∀ c0 c1 c2 : α, ¬ (5 / 10000 < c0 ∧ 5 / 10000 < c1 ∧ 5 / 10000 < c2) →
      unlockStatus (unlockCounter 0 ⟨FloatVal.fin c0, FloatVal.fin c1, FloatVal.fin c2⟩)
          = Status.unlockFailed := by
    intro c0 c1 c2 hn
    have := (hfin c0 c1 c2).not.mpr hn
    simp only [unlockStatus] at this ⊢
    split_ifs with h3
    · simp [h3] at this
    · rfl
  rw [unlockBranch_status_of_key sqrt st temp_key hkey, herr]
  refine ⟨?_, ?_, hfin, ?_, ?_, ?_⟩
  · simp only [unlockStatus, unlockCounter, ne_eq, not_true_eq_false, if_false]
    rw [← countAbove_eq_three]
    split_ifs with h3 <;> simp [h3]
  · simp only [unlockStatus, unlockCounter, ne_eq, not_true_eq_false, if_false]
    have h := countAbove_eq_three
      (calculateCorrelationVectors sqrt st.err st.gesture_key temp_key).1
    split_ifs with h3
    · have := h.mp h3
      simp [this]
    · have := (not_congr h).mp h3
      push_neg at this
      obtain ⟨i, hi⟩ := this
      exact ⟨fun _ => ⟨i, by simpa using hi⟩, fun _ => rfl⟩
  · exact hrej _ _ _ (by norm_num)
  · exact hrej _ _ _ (by norm_num)
  · exact hrej _ _ _ (by norm_num)

end ScoringClaims

section ScoringClaimsReal

variable {α : Type} [LinearOrderedField α]

theorem calculateCorrelationVectors_of_length_eq (sqrt : α → α) (err : Int)
    (vec1 vec2 : List (Array3 α)) (h : vec1.length = vec2.length) :
    calculateCorrelationVectors sqrt err vec1 vec2 =
      (⟨pearson sqrt (axisOf vec1 0) (axisOf vec2 0), pearson sqrt (axisOf vec1 1) (axisOf vec2 1),
        pearson sqrt (axisOf vec1 2) (axisOf vec2 2)⟩, err) := by
  have hl : ∀ i : Fin 3, (axisOf vec1 i).length = (axisOf vec2 i).length := by
    intro i; simp [axisOf, h]
  simp only [calculateCorrelationVectors, axisVectors_of_length_eq vec1 vec2 _ h,
    correlation_eq_pearson sqrt _ _ _ (hl _)]

/-- Claim C1 on a key and an attempt of one frame each, with `err = 0`. -/
theorem C1_accept_iff_all_three_above_witness :
    (unlockBranch Real.sqrt ⟨[⟨1, 2, 3⟩], [], 0⟩ [⟨1, 2, 3⟩]).2 = Status.unlockSuccess ↔
      ∀ i : Fin 3, ((calculateCorrelationVectors Real.sqrt 0 [⟨1, 2, 3⟩] [⟨1, 2, 3⟩]).1.get i).gt
        CORRELATION_THRESHOLD = true :=
  (C1_accept_iff_all_three_above Real.sqrt ⟨[⟨1, 2, 3⟩], [], 0⟩ [⟨1, 2, 3⟩]
    (by simp)
    (by simp [calculateCorrelationVectors_of_length_eq])).1

theorem zipWith_mul_self (a : List α) : List.zipWith (· * ·) a a = a.map (· ^ 2) := by
  induction a with
  | nil => rfl
  | cons x xs ih => simp [ih, pow_two]

theorem pearson_self (a : List ℝ)
    (h : (a.length : ℝ) * (a.map (· ^ 2)).sum ≠ a.sum ^ 2) :
    pearson Real.sqrt a a = FloatVal.fin 1 := by
  have h0 := variance_term_nonneg a
  have hne : (a.length : ℝ) * (a.map (· ^ 2)).sum - a.sum ^ 2 ≠ 0 := sub_ne_zero.mpr h
  simp only [pearson, zipWith_mul_self, Real.sqrt_mul_self h0, ← pow_two (a.sum), fdiv,
    if_neg hne, div_self hne]

/-- Claim C2, the code at the failing input. For a first sequence of five
frames with the values 1, 2, 3, 9, 9 on every axis and a second sequence of
three frames with the values 1, 2, 3, `calculateCorrelationVectors` returns 1
on every axis, the correlation of the first three frames with the second
sequence, while the Pearson correlation of the five values with the zero-padded
array 1, 2, 3, 0, 0 is negative. -/
theorem C2_longer_sequence_is_truncated :
    calculateCorrelationVectors Real.sqrt 0
        [⟨1, 1, 1⟩, ⟨2, 2, 2⟩, ⟨3, 3, 3⟩, ⟨9, 9, 9⟩, ⟨9, 9, 9⟩] [⟨1, 1, 1⟩, ⟨2, 2, 2⟩, ⟨3, 3, 3⟩]
      = (⟨FloatVal.fin 1, FloatVal.fin 1, FloatVal.fin 1⟩, 0) ∧
    (∀ i : Fin 3,
      (axisVectors ([⟨1, 1, 1⟩, ⟨2, 2, 2⟩, ⟨3, 3, 3⟩, ⟨9, 9, 9⟩, ⟨9, 9, 9⟩] : List (Array3 ℝ))
        [⟨1, 1, 1⟩, ⟨2, 2, 2⟩, ⟨3, 3, 3⟩] i) = ([1, 2, 3], [1, 2, 3])) ∧
    (∀ i : Fin 3,
      pearson Real.sqrt
        (axisOf ([⟨1, 1, 1⟩, ⟨2, 2, 2⟩, ⟨3, 3, 3⟩, ⟨9, 9, 9⟩, ⟨9, 9, 9⟩] : List (Array3 ℝ)) i)
        (zeroPad (axisOf [⟨1, 1, 1⟩, ⟨2, 2, 2⟩, ⟨3, 3, 3⟩] i) 5)
      = FloatVal.fin (-74 / Real.sqrt 10336)) ∧
    -74 / Real.sqrt 10336 < 0 := by
  have hax : ∀ i : Fin 3,
      (axisVectors ([⟨1, 1, 1⟩, ⟨2, 2, 2⟩, ⟨3, 3, 3⟩, ⟨9, 9, 9⟩, ⟨9, 9, 9⟩] : List (Array3 ℝ))
        [⟨1, 1, 1⟩, ⟨2, 2, 2⟩, ⟨3, 3, 3⟩] i) = ([1, 2, 3], [1, 2, 3]) := by
    intro i
    fin_cases i <;> simp [axisVectors, resize, Array3.get]
  have hp : pearson Real.sqrt [1, 2, 3] [1, 2, 3] = FloatVal.fin 1 := by
    apply pearson_self
    norm_num
  have hpos : 0 < Real.sqrt 10336 := Real.sqrt_pos.mpr (by norm_num)
  refine ⟨?_, hax, ?_, ?_⟩
  · simp only [calculateCorrelationVectors, hax, correlation_eq_pearson Real.sqrt _ [1, 2, 3]
      [1, 2, 3] rfl, hp]
  · intro i
    have hne : Real.sqrt 10336 ≠ 0 := ne_of_gt hpos
    fin_cases i <;>
      (simp only [axisOf, zeroPad, pearson, fdiv, Array3.get]
       norm_num [hne, List.replicate])
  · exact div_neg_of_neg_of_pos (by norm_num) hpos

end ScoringClaimsReal

/-! ## The event loop: claims -/

section EngineClaims

variable {α : Type} [LinearOrderedField α]

theorem trim_nil : trim_gyro_data ([] : List (Array3 α)) = [] :=
  trim_of_all_within (by simp)

theorem keyBranch_gesture_key {β : Type} (st : EngineState β) (temp_key : List (Array3 β)) :
    (keyBranch st temp_key).1.gesture_key = temp_key := by
  unfold keyBranch
  split <;> rfl

theorem unlockBranch_of_no_key (sqrt : α → α) (st : EngineState α)
    (temp_key : List (Array3 α)) (h : st.gesture_key = []) :
    unlockBranch sqrt st temp_key = (⟨[], [], st.err⟩, Status.noKeySaved) := by
  simp [unlockBranch, h]

/-- The value of `calculateCorrelationVectors` for any two sequences: the
Pearson formula on the two vectors passed to `correlation` for each axis, and
`err` as it was. -/
theorem calculateCorrelationVectors_eq (sqrt : α → α) (err : Int)
    (vec1 vec2 : List (Array3 α)) :
    calculateCorrelationVectors sqrt err vec1 vec2 =
      (⟨pearson sqrt (axisVectors vec1 vec2 0).1 (axisVectors vec1 vec2 0).2,
        pearson sqrt (axisVectors vec1 vec2 1).1 (axisVectors vec1 vec2 1).2,
        pearson sqrt (axisVectors vec1 vec2 2).1 (axisVectors vec1 vec2 2).2⟩, err) := by
  simp only [calculateCorrelationVectors,
    correlation_eq_pearson sqrt _ _ _ (axisVectors_length vec1 vec2 _)]

theorem unlockBranch_gesture_key (sqrt : α → α) (st : EngineState α)
    (temp_key : List (Array3 α)) :
    (unlockBranch sqrt st temp_key).1.gesture_key = st.gesture_key := by
  unfold unlockBranch
  simp only []
  split <;> rfl

/-- Claim C11. An iteration woken with `KEY_FLAG` ends with `gesture_key`
equal to the trimmed capture, and the branch that stores the key has this
effect on `gesture_key` from every state, with or without an earlier key. -/
theorem C11_record_stores_trimmed_capture (sqrt : α → α) (st : EngineState α)
    (flag_check : Nat) (capture : List (Array3 α)) (hkey : flag_check &&& KEY_FLAG ≠ 0) :
    (gyroscope_thread_iteration sqrt st flag_check capture).1.gesture_key
      = trim_gyro_data capture ∧
    (∀ st0 : EngineState α,
      (keyBranch st0 (trim_gyro_data capture)).1.gesture_key = trim_gyro_data capture) := by
  have h1 : flag_check &&& (KEY_FLAG ||| UNLOCK_FLAG) ≠ 0 := by
    intro h0
    apply hkey
    apply Nat.eq_of_testBit_eq
    intro i
    have := congrArg (fun n => n.testBit i) h0
    simp only [Nat.testBit_and, Nat.testBit_or, Nat.zero_testBit, Bool.and_eq_false_imp] at this ⊢
    cases h : flag_check.testBit i <;> simp_all
  refine ⟨?_, fun st0 => keyBranch_gesture_key st0 _⟩
  unfold gyroscope_thread_iteration
  simp only [hkey, h1, ne_eq, not_false_eq_true, if_true]
  split <;> exact keyBranch_gesture_key _ _

/-- Claim C11 on a state that holds a key, woken with `KEY_FLAG` alone. -/
theorem C11_record_stores_trimmed_capture_witness :
    (gyroscope_thread_iteration Real.sqrt ⟨[⟨1, 2, 3⟩], [], 0⟩ 1
        [⟨0, 0, 0⟩, ⟨4, 5, 6⟩]).1.gesture_key
      = trim_gyro_data [⟨0, 0, 0⟩, ⟨4, 5, 6⟩] :=
  (C11_record_stores_trimmed_capture Real.sqrt ⟨[⟨1, 2, 3⟩], [], 0⟩ 1 [⟨0, 0, 0⟩, ⟨4, 5, 6⟩]
    (by decide)).1

/-- Claim C12. An unlock request made while `gesture_key` is empty reports
NO KEY SAVED; the result does not depend on `sqrt` or on the attempt, `err`
keeps its value, and neither UNLOCK: SUCCESS nor UNLOCK: FAILED is reported.
The same holds for the whole iteration woken with `UNLOCK_FLAG` and without
`KEY_FLAG`. -/
theorem C12_unlock_without_key (sqrt : α → α) (st : EngineState α) (flag_check : Nat)
    (capture temp_key : List (Array3 α)) (hempty : st.gesture_key = [])
    (hkey : flag_check &&& KEY_FLAG = 0) (hunlock : flag_check &&& UNLOCK_FLAG ≠ 0) :
    unlockBranch sqrt st temp_key = (⟨[], [], st.err⟩, Status.noKeySaved) ∧
    gyroscope_thread_iteration sqrt st flag_check capture
      = (⟨[], [], st.err⟩, some Status.noKeySaved) := by
  refine ⟨unlockBranch_of_no_key sqrt st temp_key hempty, ?_⟩
  unfold gyroscope_thread_iteration
  simp only [hkey, hunlock, ne_eq, not_true_eq_false, not_false_eq_true, if_true, if_false]
  split
  · rw [unlockBranch_of_no_key sqrt _ _ (by simp [eraseBlock])]
    simp [eraseBlock]
  · rw [unlockBranch_of_no_key sqrt _ _ hempty]

/-- Claim C12 on the state without a key, woken with `UNLOCK_FLAG` alone. -/
theorem C12_unlock_without_key_witness :
    gyroscope_thread_iteration Real.sqrt ⟨[], [], 0⟩ 2 [⟨0, 0, 0⟩, ⟨4, 5, 6⟩]
      = (⟨[], [], 0⟩, some Status.noKeySaved) :=
  (C12_unlock_without_key Real.sqrt ⟨[], [], 0⟩ 2 [⟨0, 0, 0⟩, ⟨4, 5, 6⟩] [] rfl
    (by decide) (by decide)).2

/-- Claim C13. The erase block leaves `gesture_key` and `unlocking_record`
empty from every state, and an iteration woken with `ERASE_FLAG` and without
`KEY_FLAG` ends with both empty. -/
theorem C13_erase_clears_key_and_attempt (sqrt : α → α) (st : EngineState α)
    (flag_check : Nat) (capture : List (Array3 α)) (herase : flag_check &&& ERASE_FLAG ≠ 0)
    (hkey : flag_check &&& KEY_FLAG = 0) :
    ((eraseBlock st).gesture_key = [] ∧ (eraseBlock st).unlocking_record = []) ∧
    (gyroscope_thread_iteration sqrt st flag_check capture).1.gesture_key = [] ∧
    (gyroscope_thread_iteration sqrt st flag_check capture).1.unlocking_record = [] := by
  refine ⟨⟨rfl, rfl⟩, ?_⟩
  unfold gyroscope_thread_iteration
  simp only [herase, hkey, ne_eq, not_true_eq_false, not_false_eq_true, if_true, if_false]
  split
  · rw [unlockBranch_of_no_key sqrt _ _ (by simp [eraseBlock])]
    exact ⟨rfl, rfl⟩
  · exact ⟨rfl, rfl⟩

/-- Claim C13 on a state that holds a key, woken with `ERASE_FLAG` alone. -/
theorem C13_erase_clears_key_and_attempt_witness :
    (gyroscope_thread_iteration Real.sqrt ⟨[⟨1, 2, 3⟩], [⟨7, 8, 9⟩], 0⟩ 4 []).1.gesture_key = [] ∧
    (gyroscope_thread_iteration Real.sqrt ⟨[⟨1, 2, 3⟩], [⟨7, 8, 9⟩], 0⟩ 4 []).1.unlocking_record
      = [] :=
  (C13_erase_clears_key_and_attempt Real.sqrt ⟨[⟨1, 2, 3⟩], [⟨7, 8, 9⟩], 0⟩ 4 [] (by decide)
    (by decide)).2

/-- Claim C14. For every pair of sequences, `calculateCorrelationVectors`
passes to `correlation`, on every axis, two vectors of equal length, and
leaves `err` as it was. -/
theorem C14_no_size_mismatch (sqrt : α → α) (err : Int) (vec1 vec2 : List (Array3 α)) :
    (∀ i : Fin 3, (axisVectors vec1 vec2 i).1.length = (axisVectors vec1 vec2 i).2.length) ∧
    (∀ i : Fin 3,
      (correlation sqrt err (axisVectors vec1 vec2 i).1 (axisVectors vec1 vec2 i).2).2 = err) ∧
    (calculateCorrelationVectors sqrt err vec1 vec2).2 = err := by
  refine ⟨axisVectors_length vec1 vec2, fun i => ?_, ?_⟩
  · rw [correlation_eq_pearson sqrt err _ _ (axisVectors_length vec1 vec2 i)]
  · rw [calculateCorrelationVectors_eq]

/-- Claim C15. In the unlock branch with a reference key present, when `err`
is not zero after scoring the attempt is reported UNLOCK: FAILED, whatever
the three correlations are. -/
theorem C15_scorer_error_rejects (sqrt : α → α) (st : EngineState α)
    (temp_key : List (Array3 α)) (hkey : st.gesture_key ≠ [])
    (herr : (calculateCorrelationVectors sqrt st.err st.gesture_key temp_key).2 ≠ 0) :
    (unlockBranch sqrt st temp_key).2 = Status.unlockFailed ∧
    (∀ (e : Int) (res : Array3 (FloatVal α)), e ≠ 0 →
      unlockStatus (unlockCounter e res) = Status.unlockFailed) := by
  have h : ∀ (e : Int) (res : Array3 (FloatVal α)), e ≠ 0 →
      unlockStatus (unlockCounter e res) = Status.unlockFailed := by
    intro e res he
    simp [unlockStatus, unlockCounter, he]
  exact ⟨by rw [unlockBranch_status_of_key sqrt st temp_key hkey]; exact h _ _ herr, h⟩

/-- Claim C15 on a key and an identical attempt, whose three correlations are
1, with `err = -1`. -/
theorem C15_scorer_error_rejects_witness :
    (calculateCorrelationVectors Real.sqrt (-1) [⟨1, 2, 3⟩, ⟨2, 4, 7⟩]
        [⟨1, 2, 3⟩, ⟨2, 4, 7⟩]).1 = ⟨FloatVal.fin 1, FloatVal.fin 1, FloatVal.fin 1⟩ ∧
    (unlockBranch Real.sqrt ⟨[⟨1, 2, 3⟩, ⟨2, 4, 7⟩], [], -1⟩ [⟨1, 2, 3⟩, ⟨2, 4, 7⟩]).2
      = Status.unlockFailed :=
  ⟨by
    rw [calculateCorrelationVectors_of_length_eq Real.sqrt _ _ _ rfl,
      pearson_self _ (by norm_num [axisOf, Array3.get]),
      pearson_self _ (by norm_num [axisOf, Array3.get]),
      pearson_self _ (by norm_num [axisOf, Array3.get])],
   (C15_scorer_error_rejects Real.sqrt ⟨[⟨1, 2, 3⟩, ⟨2, 4, 7⟩], [], -1⟩ [⟨1, 2, 3⟩, ⟨2, 4, 7⟩]
    (by simp) (by simp [calculateCorrelationVectors_eq])).1⟩

end EngineClaims
/-! ## The trimming boundary: claims -/

section BoundaryClaims

variable {α : Type} [LinearOrderedField α]

theorem withinThreshold_iff (f : Array3 α) :
    withinThreshold f = true ↔
      |f.get 0| ≤ threshold ∧ |f.get 1| ≤ threshold ∧ |f.get 2| ≤ threshold := by
  simp [withinThreshold, and_assoc]

theorem withinThreshold_eq_false_iff (f : Array3 α) :
    withinThreshold f = false ↔
      threshold < |f.get 0| ∨ threshold < |f.get 1| ∨ threshold < |f.get 2| := by
  rw [← Bool.not_eq_true, withinThreshold_iff]
  simp only [not_and_or, not_le]

/-- Claim C18 as stated fails. A leading frame and a trailing frame that
have an axis magnitude equal to the threshold `1e-8`, the other axes being
zero, are stripped. -/
theorem C18_frame_at_threshold_is_stripped :
    |(1 / 100000000 : ℚ)| = threshold ∧
    trim_gyro_data ([⟨1 / 100000000, 0, 0⟩, ⟨1, 0, 0⟩, ⟨0, -1 / 100000000, 0⟩] :
      List (Array3 ℚ)) = [⟨1, 0, 0⟩] := by
  refine ⟨by norm_num [threshold, abs_of_pos], ?_⟩
  exact trim_eq_slice _ 1 1 (by decide) (by decide)
    (by intro i hi; interval_cases i; norm_num [withinThreshold, Array3.get, threshold, abs_of_pos])
    (by norm_num [withinThreshold, Array3.get, threshold])
    (by norm_num [withinThreshold, Array3.get, threshold])
    (by
      intro i h₁ h₂
      simp only [List.length_cons, List.length_nil] at h₂
      interval_cases i
      norm_num [withinThreshold, Array3.get, threshold, abs_of_pos, abs_of_neg])

/-- Claim C18, amended. `trim_gyro_data` treats a frame as near-zero exactly
when each of its three axis magnitudes is at most `1e-8`: when `L` is the
first and `R` the last index of a frame with an axis magnitude strictly above
`1e-8`, every frame before `L` and after `R` is stripped, the frames with a
magnitude equal to `1e-8` included, and the output is the frames `L..R`. -/
theorem C18_strips_frames_at_most_threshold (data : List (Array3 α)) (L R : Nat)
    (hL : L < data.length) (hR : R < data.length)
    (hpre : ∀ i, i < L → |(data.getD i ⟨0, 0, 0⟩).get 0| ≤ threshold ∧
      |(data.getD i ⟨0, 0, 0⟩).get 1| ≤ threshold ∧ |(data.getD i ⟨0, 0, 0⟩).get 2| ≤ threshold)
    (hfirst : threshold < |(data.getD L ⟨0, 0, 0⟩).get 0| ∨
      threshold < |(data.getD L ⟨0, 0, 0⟩).get 1| ∨ threshold < |(data.getD L ⟨0, 0, 0⟩).get 2|)
    (hlast : threshold < |(data.getD R ⟨0, 0, 0⟩).get 0| ∨
      threshold < |(data.getD R ⟨0, 0, 0⟩).get 1| ∨ threshold < |(data.getD R ⟨0, 0, 0⟩).get 2|)
    (hpost : ∀ i, R < i → i < data.length → |(data.getD i ⟨0, 0, 0⟩).get 0| ≤ threshold ∧
      |(data.getD i ⟨0, 0, 0⟩).get 1| ≤ threshold ∧ |(data.getD i ⟨0, 0, 0⟩).get 2| ≤ threshold) :
    trim_gyro_data data = (data.take (R + 1)).drop L :=
  trim_eq_slice data L R hL hR
    (fun i hi => (withinThreshold_iff _).mpr (hpre i hi))
    ((withinThreshold_eq_false_iff _).mpr hfirst)
    ((withinThreshold_eq_false_iff _).mpr hlast)
    (fun i h₁ h₂ => (withinThreshold_iff _).mpr (hpost i h₁ h₂))

/-- Claim C18, amended, on a sequence whose first and last frames have a
magnitude equal to `1e-8`. -/
theorem C18_strips_frames_at_most_threshold_witness :
    trim_gyro_data ([⟨1 / 100000000, 0, 0⟩, ⟨1, 0, 0⟩, ⟨0, 0, 0⟩, ⟨0, 3, 0⟩,
        ⟨0, -1 / 100000000, 0⟩] : List (Array3 ℚ))
      = [⟨1, 0, 0⟩, ⟨0, 0, 0⟩, ⟨0, 3, 0⟩] :=
  C18_strips_frames_at_most_threshold _ 1 3 (by decide) (by decide)
    (by intro i hi; interval_cases i; norm_num [Array3.get, threshold, abs_of_pos])
    (by norm_num [Array3.get, threshold])
    (by norm_num [Array3.get, threshold])
    (by
      intro i h₁ h₂
      simp only [List.length_cons, List.length_nil] at h₂
      interval_cases i
      norm_num [Array3.get, threshold, abs_of_pos, abs_of_neg])

end BoundaryClaims
/-! ## Flash storage: claims -/

section FlashClaims

theorem vectorBytes_length (g : List (Array3 FloatBytes)) :
    (vectorBytes g).length = g.length * sizeofArray3 := by
  induction g with
  | nil => rfl
  | cons f rest ih =>
    simp only [vectorBytes, List.length_append, ih, List.length_cons]
    simp [frameBytes, floatBytes, sizeofArray3]
    omega

theorem framesOfBytes_vectorBytes (g : List (Array3 FloatBytes)) :
    framesOfBytes g.length (vectorBytes g) = g := by
  induction g with
  | nil => rfl
  | cons f rest ih =>
    have h1 : frameOfBytes (vectorBytes (f :: rest)) = f := by
      simp [vectorBytes, frameBytes, floatBytes, frameOfBytes, floatOfBytes]
    have h2 : (vectorBytes (f :: rest)).drop sizeofArray3 = vectorBytes rest := by
      simp [vectorBytes, frameBytes, floatBytes, sizeofArray3]
    simp only [List.length_cons, framesOfBytes, h1, h2, ih]

theorem overwrite_of_length_eq (storage bytes : List Byte)
    (h : bytes.length = storage.length) : overwrite storage bytes = bytes := by
  unfold overwrite
  rw [← h, List.drop_of_length_le (by omega : storage.length ≤ bytes.length)]
  simp

theorem memoryFlash_readsBack : memoryFlash.ReadsBack where
  read_init := fun _ _ _ => rfl
  read_deinit := fun _ _ _ => rfl
  read_program := by
    intro fl buf addr _
    apply List.ext_getElem
    · simp [memoryFlash]
    · intro n h1 h2
      simp [memoryFlash, h2, List.getD_eq_getElem?_getD]

/-- Claim C20. On a flash where `program` succeeds and `read` returns the
bytes last programmed, for a sequence `g` whose `g.size() * 12` bytes fit a
`uint32_t`, `readGyroDataFromFlash(address, g.size())` called after
`storeGyroDataToFlash(g, address)` returned true yields `g`: the same number
of frames, with the same bytes in every `float`, in the same order. -/
theorem C20_store_then_read_round_trip {Φ : Type} (F : FlashIAP Φ) (hF : F.ReadsBack)
    (fl : Φ) (g : List (Array3 FloatBytes)) (flash_address : Nat)
    (hsize : g.length * sizeofArray3 < 2 ^ 32)
    (hstore : (storeGyroDataToFlash F fl g flash_address).2 = true) :
    readGyroDataFromFlash F (storeGyroDataToFlash F fl g flash_address).1 flash_address
      g.length = g := by
  have hmod : g.length * sizeofArray3 % 2 ^ 32 = g.length * sizeofArray3 :=
    Nat.mod_eq_of_lt hsize
  have htake : (vectorBytes g).take (g.length * sizeofArray3) = vectorBytes g :=
    List.take_of_length_le (by rw [vectorBytes_length])
  simp only [storeGyroDataToFlash, hmod, htake, decide_eq_true_eq] at hstore
  have hread := hF.read_program _ _ _ hstore
  rw [vectorBytes_length] at hread
  simp only [readGyroDataFromFlash, storeGyroDataToFlash, hmod, htake, hF.read_init,
    hF.read_deinit, hread]
  rw [overwrite_of_length_eq _ _ (by simp [vectorBytes_length]), framesOfBytes_vectorBytes]

/-- Claim C20 on a sequence of two frames stored at address 4096 of a flash
whose content is a map from addresses to bytes. -/
theorem C20_store_then_read_round_trip_witness :
    readGyroDataFromFlash memoryFlash
      (storeGyroDataToFlash memoryFlash (fun _ => 255)
        [⟨⟨0, 0, 128, 63⟩, ⟨0, 0, 0, 64⟩, ⟨0, 0, 64, 64⟩⟩,
          ⟨⟨0, 0, 0, 0⟩, ⟨0, 0, 192, 127⟩, ⟨0, 0, 128, 191⟩⟩] 4096).1 4096
      ([⟨⟨0, 0, 128, 63⟩, ⟨0, 0, 0, 64⟩, ⟨0, 0, 64, 64⟩⟩,
          ⟨⟨0, 0, 0, 0⟩, ⟨0, 0, 192, 127⟩, ⟨0, 0, 128, 191⟩⟩] : List (Array3 FloatBytes)).length
      = [⟨⟨0, 0, 128, 63⟩, ⟨0, 0, 0, 64⟩, ⟨0, 0, 64, 64⟩⟩,
          ⟨⟨0, 0, 0, 0⟩, ⟨0, 0, 192, 127⟩, ⟨0, 0, 128, 191⟩⟩] :=
  C20_store_then_read_round_trip memoryFlash memoryFlash_readsBack (fun _ => 255) _ 4096
    (by decide) rfl

end FlashClaims

/-! ## Calibration across bursts: claims -/

section CalibrationBehaviour

set_option maxRecDepth 100000

theorem calibrate_thresholds_nonneg (bursts : List (Nat → Gyroscope_RawData)) :
    ∀ st : GyroState, 0 ≤ st.x_threshold → 0 ≤ st.y_threshold → 0 ≤ st.z_threshold →
      0 ≤ (bursts.foldl CalibrateGyroscope st).x_threshold ∧
      0 ≤ (bursts.foldl CalibrateGyroscope st).y_threshold ∧
      0 ≤ (bursts.foldl CalibrateGyroscope st).z_threshold := by
  induction bursts with
  | nil => intro st hx hy hz; exact ⟨hx, hy, hz⟩
  | cons b bs ih =>
    intro st hx hy hz
    rw [List.foldl_cons]
    apply ih <;>
      simp only [CalibrateGyroscope, calibrateLoop_eq] <;>
      exact le_trans (by assumption) (le_max_left _ _)

theorem wrap16_mem (x : Int) : -32768 ≤ wrap16 x ∧ wrap16 x ≤ 32767 := by
  unfold wrap16; omega

theorem offset_eq_fdiv (w : Int) (h₁ : -32768 ≤ w) (h₂ : w ≤ 32767) :
    wrap16 (w >>> (7 : Nat)) = Int.fdiv w 128 := by
  have h : w >>> (7 : Nat) = w / 128 := by
    rw [Int.shiftRight_eq_div_pow]; norm_num
  have hf : Int.fdiv w 128 = w / 128 := Int.fdiv_eq_ediv w (by norm_num)
  rw [h, hf]
  exact wrap16_of_mem (by omega) (by omega)

/-- Claim C23. After `CalibrateGyroscope` the threshold of each axis is the
larger of its value before the call and the maximum raw value of that axis
in the burst, so it is never below its value before the call; over every
sequence of calibrations from the boot state, in which the thresholds are 0,
no threshold is ever negative. -/
theorem C23_threshold_running_maximum (st : GyroState) (sensor : Nat → Gyroscope_RawData)
    (bursts : List (Nat → Gyroscope_RawData)) :
    ((CalibrateGyroscope st sensor).x_threshold
        = max st.x_threshold (burstMax fun i => (sensor i).x_raw) ∧
      (CalibrateGyroscope st sensor).y_threshold
        = max st.y_threshold (burstMax fun i => (sensor i).y_raw) ∧
      (CalibrateGyroscope st sensor).z_threshold
        = max st.z_threshold (burstMax fun i => (sensor i).z_raw)) ∧
    (st.x_threshold ≤ (CalibrateGyroscope st sensor).x_threshold ∧
      st.y_threshold ≤ (CalibrateGyroscope st sensor).y_threshold ∧
      st.z_threshold ≤ (CalibrateGyroscope st sensor).z_threshold) ∧
    (0 ≤ (bursts.foldl CalibrateGyroscope GyroState.boot).x_threshold ∧
      0 ≤ (bursts.foldl CalibrateGyroscope GyroState.boot).y_threshold ∧
      0 ≤ (bursts.foldl CalibrateGyroscope GyroState.boot).z_threshold) ∧
    ((bursts.foldl CalibrateGyroscope GyroState.boot).x_threshold
        ≤ ((bursts ++ [sensor]).foldl CalibrateGyroscope GyroState.boot).x_threshold ∧
      (bursts.foldl CalibrateGyroscope GyroState.boot).y_threshold
        ≤ ((bursts ++ [sensor]).foldl CalibrateGyroscope GyroState.boot).y_threshold ∧
      (bursts.foldl CalibrateGyroscope GyroState.boot).z_threshold
        ≤ ((bursts ++ [sensor]).foldl CalibrateGyroscope GyroState.boot).z_threshold) := by
  refine ⟨?_, ?_, ?_, ?_⟩
  · simp only [CalibrateGyroscope, calibrateLoop_eq, and_self]
  · simp only [CalibrateGyroscope, calibrateLoop_eq]
    exact ⟨le_max_left _ _, le_max_left _ _, le_max_left _ _⟩
  · exact calibrate_thresholds_nonneg bursts GyroState.boot (le_refl _) (le_refl _) (le_refl _)
  · simp only [List.foldl_append, List.foldl_cons, List.foldl_nil, CalibrateGyroscope,
      calibrateLoop_eq]
    exact ⟨le_max_left _ _, le_max_left _ _, le_max_left _ _⟩

/-- Claim C24. The offset of each axis after `CalibrateGyroscope` is
`floor (w / 128)`, with `w` the sum of the 128 raw readings of the axis
reduced modulo `2^16` into `[-32768, 32767]`; a constant raw value 300 gives
the offset -212; and the offset is `floor (sum / 128)` when the sum itself
lies in `[-32768, 32767]`. -/
theorem C24_offset_is_floor_of_wrapped_sum (st : GyroState)
    (sensor : Nat → Gyroscope_RawData) :
    ((CalibrateGyroscope st sensor).x_sample
        = Int.fdiv (wrap16 (burstSum fun i => (sensor i).x_raw)) 128 ∧
      (CalibrateGyroscope st sensor).y_sample
        = Int.fdiv (wrap16 (burstSum fun i => (sensor i).y_raw)) 128 ∧
      (CalibrateGyroscope st sensor).z_sample
        = Int.fdiv (wrap16 (burstSum fun i => (sensor i).z_raw)) 128) ∧
    (CalibrateGyroscope st (constantBurst 300)).x_sample = -212 ∧
    ((-32768 ≤ burstSum fun i => (sensor i).x_raw) →
      (burstSum fun i => (sensor i).x_raw) ≤ 32767 →
      (CalibrateGyroscope st sensor).x_sample
        = Int.fdiv (burstSum fun i => (sensor i).x_raw) 128) := by
  have hw := fun f => offset_eq_fdiv (wrap16 (burstSum f)) (wrap16_mem _).1 (wrap16_mem _).2
  refine ⟨?_, ?_, ?_⟩
  · simp only [CalibrateGyroscope, calibrateLoop_eq, hw, and_self]
  · simp only [CalibrateGyroscope, calibrateLoop_eq, hw, constantBurst, burstSum_const]
    decide
  · intro h₁ h₂
    simp only [CalibrateGyroscope, calibrateLoop_eq, wrap16_of_mem h₁ h₂]
    exact offset_eq_fdiv _ h₁ h₂

/-- Claim C24 on the burst that reads 100 on every axis, whose sum is 12800. -/
theorem C24_offset_is_floor_of_wrapped_sum_witness :
    (CalibrateGyroscope GyroState.boot (constantBurst 100)).x_sample
      = Int.fdiv (burstSum fun i => (constantBurst 100 i).x_raw) 128 :=
  (C24_offset_is_floor_of_wrapped_sum GyroState.boot (constantBurst 100)).2.2
    (by decide) (by decide)

end CalibrationBehaviour
/-! ## Scoring, trimming and the unlock request: further claims -/

section BehaviourClaims

variable {α : Type} [LinearOrderedField α]

theorem axisVectors_eq_take (vec1 vec2 : List (Array3 α)) (i : Fin 3) :
    axisVectors vec1 vec2 i =
      (axisOf (vec1.take (min vec1.length vec2.length)) i,
        axisOf (vec2.take (min vec1.length vec2.length)) i) := by
  unfold axisVectors resize axisOf
  simp only [List.length_map]
  split
  · next h =>
    have h0 : vec2.length - vec1.length = 0 := by omega
    have hm : min vec1.length vec2.length = vec2.length := by omega
    simp only [h0, hm, List.replicate_zero, List.append_nil, List.map_take,
      List.take_of_length_le (le_refl vec2.length)]
  · split
    · next h₁ h =>
      have h0 : vec1.length - vec2.length = 0 := by omega
      have hm : min vec1.length vec2.length = vec1.length := by omega
      simp only [h0, hm, List.replicate_zero, List.append_nil, List.map_take,
        List.take_of_length_le (le_refl vec1.length)]
    · next h₁ h₂ =>
      have hm : min vec1.length vec2.length = vec1.length := by omega
      have h3 : vec2.length ≤ vec1.length := by omega
      rw [hm, List.take_of_length_le (le_refl _), List.take_of_length_le h3]

theorem calculateCorrelationVectors_take (sqrt : α → α) (err : Int)
    (vec1 vec2 : List (Array3 α)) :
    calculateCorrelationVectors sqrt err vec1 vec2 =
      calculateCorrelationVectors sqrt err (vec1.take (min vec1.length vec2.length))
        (vec2.take (min vec1.length vec2.length)) := by
  have hl : (vec1.take (min vec1.length vec2.length)).length
      = (vec2.take (min vec1.length vec2.length)).length := by
    simp only [List.length_take]; omega
  rw [calculateCorrelationVectors_eq,
    calculateCorrelationVectors_of_length_eq sqrt err _ _ hl]
  simp only [axisVectors_eq_take]

/-- Claim C25. With `k` the smaller of the two lengths,
`calculateCorrelationVectors` on `vec1`, `vec2` equals
`calculateCorrelationVectors` on the first `k` frames of each; frames
appended to the longer sequence beyond index `k` do not change any of the
three results. -/
theorem C25_only_common_prefix_matters (sqrt : α → α) (err : Int)
    (vec1 vec2 more : List (Array3 α)) :
    calculateCorrelationVectors sqrt err vec1 vec2 =
      calculateCorrelationVectors sqrt err (vec1.take (min vec1.length vec2.length))
        (vec2.take (min vec1.length vec2.length)) ∧
    (vec2.length ≤ vec1.length →
      calculateCorrelationVectors sqrt err (vec1 ++ more) vec2 =
        calculateCorrelationVectors sqrt err vec1 vec2 ∧
      calculateCorrelationVectors sqrt err vec2 (vec1 ++ more) =
        calculateCorrelationVectors sqrt err vec2 vec1) := by
  refine ⟨calculateCorrelationVectors_take sqrt err vec1 vec2, fun hlen => ?_⟩
  have hm1 : min (vec1 ++ more).length vec2.length = vec2.length := by
    simp only [List.length_append]; omega
  have hm2 : min vec1.length vec2.length = vec2.length := by omega
  have hm3 : min vec2.length (vec1 ++ more).length = vec2.length := by
    simp only [List.length_append]; omega
  have hm4 : min vec2.length vec1.length = vec2.length := by omega
  have ht : (vec1 ++ more).take vec2.length = vec1.take vec2.length := by
    rw [List.take_append_of_le_length hlen]
  constructor
  · rw [calculateCorrelationVectors_take sqrt err (vec1 ++ more) vec2,
      calculateCorrelationVectors_take sqrt err vec1 vec2, hm1, hm2, ht]
  · rw [calculateCorrelationVectors_take sqrt err vec2 (vec1 ++ more),
      calculateCorrelationVectors_take sqrt err vec2 vec1, hm3, hm4, ht]

/-- Claim C25 on a sequence of one frame against a sequence of one frame
followed by a further frame. -/
theorem C25_only_common_prefix_matters_witness :
    calculateCorrelationVectors Real.sqrt 0 ([⟨1, 2, 3⟩] ++ [⟨4, 5, 6⟩]) [⟨7, 8, 9⟩] =
      calculateCorrelationVectors Real.sqrt 0 [⟨1, 2, 3⟩] [⟨7, 8, 9⟩] :=
  ((C25_only_common_prefix_matters Real.sqrt 0 [⟨1, 2, 3⟩] [⟨7, 8, 9⟩] [⟨4, 5, 6⟩]).2
    (by decide)).1

theorem scanForward_spec : ∀ (data : List (Array3 α)), scanForward data < data.length →
    withinThreshold (data.getD (scanForward data) ⟨0, 0, 0⟩) = false ∧
    ∀ i, i < scanForward data → withinThreshold (data.getD i ⟨0, 0, 0⟩) = true
  | [], h => by simp [scanForward] at h
  | f :: rest, h => by
    cases hf : withinThreshold f with
    | false => simp [scanForward, hf]
    | true =>
      simp only [scanForward, hf, if_true, List.length_cons, Nat.add_lt_add_iff_right] at h ⊢
      obtain ⟨h1, h2⟩ := scanForward_spec rest h
      refine ⟨by simpa using h1, ?_⟩
      intro i hi
      cases i with
      | zero => simpa using hf
      | succ k => simpa using h2 k (by omega)

theorem scanBackward_spec (data : List (Array3 α)) : ∀ p : Nat,
    scanBackward data p ≤ p ∧
    (∀ i, scanBackward data p < i → i ≤ p →
      withinThreshold (data.getD i ⟨0, 0, 0⟩) = true) ∧
    (0 < scanBackward data p →
      withinThreshold (data.getD (scanBackward data p) ⟨0, 0, 0⟩) = false)
  | 0 => by
    refine ⟨by simp [scanBackward], ?_, by simp [scanBackward]⟩
    intro i hi hi0
    simp only [scanBackward] at hi
    omega
  | p + 1 => by
    obtain ⟨h1, h2, h3⟩ := scanBackward_spec data p
    cases hw : withinThreshold (data.getD (p + 1) ⟨0, 0, 0⟩) with
    | true =>
      simp only [scanBackward, hw, if_true]
      refine ⟨by omega, ?_, h3⟩
      intro i hi hip
      rcases Nat.lt_or_ge i (p + 1) with h | h
      · exact h2 i hi (by omega)
      · have : i = p + 1 := by omega
        rw [this]; exact hw
    | false =>
      simp only [scanBackward, hw]
      refine ⟨le_refl _, ?_, fun _ => hw⟩
      intro i hi hip
      simp at hi
      omega

/-- A sequence with a frame that fails the near-zero test is trimmed to the
frames from the first such frame to the last one. -/
theorem trim_eq_slice_of_scan (data : List (Array3 α))
    (h : scanForward data < data.length) :
    scanForward data ≤ scanBackward data (data.length - 1) ∧
    scanBackward data (data.length - 1) < data.length ∧
    trim_gyro_data data =
      (data.take (scanBackward data (data.length - 1) + 1)).drop (scanForward data) := by
  obtain ⟨hf1, hf2⟩ := scanForward_spec data h
  obtain ⟨hb1, hb2, hb3⟩ := scanBackward_spec data (data.length - 1)
  have hLR : scanForward data ≤ scanBackward data (data.length - 1) := by
    by_contra hc
    have := hb2 (scanForward data) (by omega) (by omega)
    rw [hf1] at this
    exact Bool.false_ne_true this
  have hR : scanBackward data (data.length - 1) < data.length := by omega
  have hlast : withinThreshold
      (data.getD (scanBackward data (data.length - 1)) ⟨0, 0, 0⟩) = false := by
    rcases Nat.eq_zero_or_pos (scanBackward data (data.length - 1)) with h0 | hpos
    · have : scanForward data = 0 := by omega
      rw [h0, ← this]; exact hf1
    · exact hb3 hpos
  exact ⟨hLR, hR, trim_eq_slice data _ _ h hR hf2 hf1 hlast
    (fun i h₁ h₂ => hb2 i h₁ (by omega))⟩

theorem trim_ne_nil (data : List (Array3 α)) (h : data ≠ []) : trim_gyro_data data ≠ [] := by
  rcases Nat.lt_or_ge (scanForward data) data.length with hlt | hge
  · obtain ⟨hLR, hR, heq⟩ := trim_eq_slice_of_scan data hlt
    rw [heq]
    intro hnil
    have := congrArg List.length hnil
    simp only [List.length_drop, List.length_take, List.length_nil] at this
    omega
  · have : scanForward data = data.length := le_antisymm (scanForward_le data) hge
    simp only [trim_gyro_data, this, if_true]
    exact h

/-- Claim C26. `trim_gyro_data` returns a non-empty sequence for every
non-empty sequence, so an iteration woken with `KEY_FLAG` whose capture holds
at least one frame ends with a non-empty `gesture_key`. -/
theorem C26_trim_keeps_a_frame (sqrt : α → α) (st : EngineState α) (flag_check : Nat)
    (data : List (Array3 α)) (hdata : data ≠ []) :
    trim_gyro_data data ≠ [] ∧
    (flag_check &&& KEY_FLAG ≠ 0 →
      (gyroscope_thread_iteration sqrt st flag_check data).1.gesture_key ≠ []) := by
  refine ⟨trim_ne_nil data hdata, fun hkey => ?_⟩
  have h1 : flag_check &&& (KEY_FLAG ||| UNLOCK_FLAG) ≠ 0 := by
    intro h0
    apply hkey
    apply Nat.eq_of_testBit_eq
    intro i
    have := congrArg (fun n => n.testBit i) h0
    simp only [Nat.testBit_and, Nat.testBit_or, Nat.zero_testBit, Bool.and_eq_false_imp] at this ⊢
    cases h : flag_check.testBit i <;> simp_all
  have hg : (gyroscope_thread_iteration sqrt st flag_check data).1.gesture_key
      = trim_gyro_data data := by
    unfold gyroscope_thread_iteration
    simp only [hkey, h1, ne_eq, not_false_eq_true, if_true]
    split <;> exact keyBranch_gesture_key _ _
  rw [hg]
  exact trim_ne_nil data hdata

/-- Claim C26 on a capture of two near-zero frames. -/
theorem C26_trim_keeps_a_frame_witness :
    trim_gyro_data ([⟨0, 0, 0⟩, ⟨0, 0, 0⟩] : List (Array3 ℝ)) ≠ [] :=
  (C26_trim_keeps_a_frame Real.sqrt ⟨[], [], 0⟩ 1 [⟨0, 0, 0⟩, ⟨0, 0, 0⟩] (by simp)).1

/-- Claim C27. The unlock branch leaves `gesture_key` as it was, whatever
the outcome, and so does an iteration woken with `UNLOCK_FLAG` in which
neither a record nor an erase request is handled. -/
theorem C27_unlock_keeps_key (sqrt : α → α) (st : EngineState α) (flag_check : Nat)
    (capture temp_key : List (Array3 α)) :
    (unlockBranch sqrt st temp_key).1.gesture_key = st.gesture_key ∧
    (flag_check &&& UNLOCK_FLAG ≠ 0 → flag_check &&& KEY_FLAG = 0 →
      flag_check &&& ERASE_FLAG = 0 →
      (gyroscope_thread_iteration sqrt st flag_check capture).1.gesture_key
        = st.gesture_key) := by
  refine ⟨unlockBranch_gesture_key sqrt st temp_key, fun hu hk he => ?_⟩
  unfold gyroscope_thread_iteration
  simp only [hu, hk, he, ne_eq, not_true_eq_false, not_false_eq_true, if_true, if_false]
  exact unlockBranch_gesture_key sqrt st _

/-- Claim C27 on a state with a key, woken with `UNLOCK_FLAG` alone. -/
theorem C27_unlock_keeps_key_witness :
    (gyroscope_thread_iteration Real.sqrt ⟨[⟨1, 2, 3⟩, ⟨2, 4, 7⟩], [], 0⟩ 2
      [⟨5, 5, 5⟩]).1.gesture_key = [⟨1, 2, 3⟩, ⟨2, 4, 7⟩] :=
  (C27_unlock_keeps_key Real.sqrt ⟨[⟨1, 2, 3⟩, ⟨2, 4, 7⟩], [], 0⟩ 2 [⟨5, 5, 5⟩] []).2
    (by decide) (by decide) (by decide)

end BehaviourClaims
/-! ## Dynamic time warping: claims -/

section DtwClaims

variable {α : Type} [LinearOrderedField α]

theorem euclidean_distance_eq (sqrt : α → α) (a b : Array3 α) :
    euclidean_distance sqrt a b =
      sqrt ((a.get 0 - b.get 0) ^ 2 + (a.get 1 - b.get 1) ^ 2 + (a.get 2 - b.get 2) ^ 2) := by
  simp only [euclidean_distance, finRange_three, List.foldl_cons, List.foldl_nil, zero_add,
    pow_two]

theorem dtwCell_eq (sqrt : α → α) (s t : List (Array3 α)) (M : DtwMatrix α) (i j : Nat)
    (h1 : M i (j + 1) = dtwRecurrence sqrt s t i (j + 1))
    (h2 : M (i + 1) j = dtwRecurrence sqrt s t (i + 1) j)
    (h3 : M i j = dtwRecurrence sqrt s t i j) :
    dtwCell sqrt s t M (i + 1) (j + 1) =
      M.assign (i + 1) (j + 1) (dtwRecurrence sqrt s t (i + 1) (j + 1)) := by
  simp only [dtwCell, Nat.add_sub_cancel, h1, h2, h3, euclidean_distance_eq]
  rw [dtwRecurrence]

/-- The inner loop for the row `k + 1`: when the rows up to `k` and column 0
hold the recurrence, so do the first `j` columns of the row `k + 1` after `j`
iterations. -/
theorem dtwRow_invariant (sqrt : α → α) (s t : List (Array3 α)) (k : Nat)
    (M : DtwMatrix α)
    (hM : ∀ a b, b ≤ t.length → (a ≤ k ∨ b = 0) → M a b = dtwRecurrence sqrt s t a b) :
    ∀ j, j ≤ t.length → ∀ a b, b ≤ t.length → (a ≤ k ∨ b = 0 ∨ (a = k + 1 ∧ b ≤ j)) →
      (List.range j).foldl (fun M c => dtwCell sqrt s t M (k + 1) (c + 1)) M a b
        = dtwRecurrence sqrt s t a b
  | 0, _, a, b, hb, h => by
    simp only [List.range_zero, List.foldl_nil]
    apply hM a b hb
    rcases h with h | h | h
    · exact Or.inl h
    · exact Or.inr h
    · exact Or.inr (by omega)
  | j + 1, hj, a, b, hb, h => by
    have ih := dtwRow_invariant sqrt s t k M hM j (by omega)
    rw [List.range_succ, List.foldl_append, List.foldl_cons, List.foldl_nil,
      dtwCell_eq sqrt s t _ k j (ih k (j + 1) hj (Or.inl (le_refl _)))
        (ih (k + 1) j (by omega) (Or.inr (Or.inr ⟨rfl, le_refl _⟩)))
        (ih k j (by omega) (Or.inl (le_refl _)))]
    simp only [DtwMatrix.assign]
    split_ifs with hc
    · rw [hc.1, hc.2]
    · apply ih a b hb
      rcases h with h | h | h
      · exact Or.inl h
      · exact Or.inr (Or.inl h)
      · refine Or.inr (Or.inr ⟨h.1, ?_⟩)
        rcases Nat.lt_or_ge b (j + 1) with hlt | hge
        · omega
        · exact absurd ⟨h.1, by omega⟩ hc

/-- The outer loop: after `k` rows, the rows up to `k` and column 0 hold the
recurrence. -/
theorem dtw_invariant (sqrt : α → α) (s t : List (Array3 α)) :
    ∀ k a b, b ≤ t.length → (a ≤ k ∨ b = 0) →
      (List.range k).foldl (fun M c => dtwRow sqrt s t M (c + 1))
          (DtwMatrix.assign (fun _ _ => ⊤) 0 0 0) a b
        = dtwRecurrence sqrt s t a b
  | 0, a, b, _, h => by
    simp only [List.range_zero, List.foldl_nil, DtwMatrix.assign]
    cases a with
    | zero =>
      cases b with
      | zero => simp [dtwRecurrence]
      | succ b => simp [dtwRecurrence]
    | succ a =>
      have hb : b = 0 := by omega
      subst hb
      simp [dtwRecurrence]
  | k + 1, a, b, hb, h => by
    rw [List.range_succ, List.foldl_append, List.foldl_cons, List.foldl_nil, dtwRow]
    apply dtwRow_invariant sqrt s t k _ (dtw_invariant sqrt s t k) t.length (le_refl _) a b hb
    rcases h with h | h
    · rcases Nat.lt_or_ge a (k + 1) with hlt | hge
      · exact Or.inl (by omega)
      · exact Or.inr (Or.inr ⟨by omega, hb⟩)
    · exact Or.inr (Or.inl h)

theorem dtw_eq_recurrence (sqrt : α → α) (s t : List (Array3 α)) :
    dtw sqrt s t = dtwRecurrence sqrt s t s.length t.length := by
  unfold dtw
  exact dtw_invariant sqrt s t s.length s.length t.length (le_refl _) (Or.inl (le_refl _))

/-- Claim C21. For all sequences `s`, `t`, `dtw` returns `D(|s|, |t|)` of the
recurrence `D(0,0) = 0`, `D(i,0) = D(0,j) = +infinity` for `i, j ≥ 1`,
`D(i,j) = euclidean_distance(s[i-1], t[j-1]) + min(D(i-1,j), D(i,j-1),
D(i-1,j-1))`, and `euclidean_distance(a, b)` is the square root of the sum
over the three axes of `(a_k - b_k)²`. -/
theorem C21_dtw_is_the_recurrence (sqrt : α → α) (s t : List (Array3 α)) :
    dtw sqrt s t = dtwRecurrence sqrt s t s.length t.length ∧
    dtwRecurrence sqrt s t 0 0 = 0 ∧
    (∀ i, dtwRecurrence sqrt s t (i + 1) 0 = ⊤) ∧
    (∀ j, dtwRecurrence sqrt s t 0 (j + 1) = ⊤) ∧
    (∀ i j, dtwRecurrence sqrt s t (i + 1) (j + 1) =
      ((euclidean_distance sqrt (s.getD i ⟨0, 0, 0⟩) (t.getD j ⟨0, 0, 0⟩) : α) : WithTop α)
        + min (dtwRecurrence sqrt s t i (j + 1))
            (min (dtwRecurrence sqrt s t (i + 1) j) (dtwRecurrence sqrt s t i j))) ∧
    (∀ a b : Array3 α, euclidean_distance sqrt a b =
      sqrt ((a.get 0 - b.get 0) ^ 2 + (a.get 1 - b.get 1) ^ 2 + (a.get 2 - b.get 2) ^ 2)) := by
  refine ⟨dtw_eq_recurrence sqrt s t, ?_, ?_, ?_, ?_, euclidean_distance_eq sqrt⟩
  · simp [dtwRecurrence]
  · intro i; simp [dtwRecurrence]
  · intro j; simp [dtwRecurrence]
  · intro i j
    rw [dtwRecurrence, euclidean_distance_eq]

theorem dtwRecurrence_nonneg (s t : List (Array3 ℝ)) :
    ∀ i j, (0 : WithTop ℝ) ≤ dtwRecurrence Real.sqrt s t i j
  | 0, 0 => by simp [dtwRecurrence]
  | _ + 1, 0 => by simp [dtwRecurrence]
  | 0, _ + 1 => by simp [dtwRecurrence]
  | i + 1, j + 1 => by
    rw [dtwRecurrence]
    exact add_nonneg (WithTop.coe_nonneg.mpr (Real.sqrt_nonneg _))
      (le_min (dtwRecurrence_nonneg s t i (j + 1))
        (le_min (dtwRecurrence_nonneg s t (i + 1) j) (dtwRecurrence_nonneg s t i j)))
termination_by i j => i + j
decreasing_by all_goals omega

theorem dtwRecurrence_diagonal (s : List (Array3 ℝ)) :
    ∀ i, dtwRecurrence Real.sqrt s s i i = 0
  | 0 => by simp [dtwRecurrence]
  | i + 1 => by
    rw [dtwRecurrence, dtwRecurrence_diagonal s i]
    simp only [sub_self, ne_eq, OfNat.ofNat_ne_zero, not_false_eq_true, zero_pow, add_zero,
      Real.sqrt_zero, WithTop.coe_zero, zero_add]
    rw [min_eq_right (dtwRecurrence_nonneg s s (i + 1) i),
      min_eq_right (dtwRecurrence_nonneg s s i (i + 1))]

/-- Claim C30. With real square roots, `dtw` of a sequence and itself is 0,
for every sequence, the empty one included. -/
theorem C30_dtw_self_is_zero (s : List (Array3 ℝ)) :
    dtw Real.sqrt s s = 0 ∧ dtw Real.sqrt ([] : List (Array3 ℝ)) [] = 0 := by
  rw [dtw_eq_recurrence, dtw_eq_recurrence]
  exact ⟨dtwRecurrence_diagonal s s.length, dtwRecurrence_diagonal [] 0⟩

end DtwClaims
/-! ## Scoring in `float` arithmetic: auxiliary facts -/

section FloatScoringLemmas

variable {F : Type} (A : FloatArith F)

theorem FloatArith.sum_take_succ (l : List F) (k : Nat) (hk : k < l.length) :
    A.sum (l.take (k + 1)) = A.add (A.sum (l.take k)) (l.getD k A.zero) := by
  rw [FloatArith.sum, FloatArith.sum, List.take_succ, List.foldl_append,
    List.getD_eq_getElem _ _ hk, List.getElem?_eq_getElem hk]
  rfl

/-- After `k` iterations the accumulators hold the sums over the first `k`
elements, accumulated in index order. -/
theorem FloatArith.corrSums_take (a b : List F) (hab : a.length = b.length) :
    ∀ k, k ≤ a.length →
    (List.range k).foldl (A.corrStep a b) ⟨A.zero, A.zero, A.zero, A.zero, A.zero⟩ =
      { sum_a := A.sum (a.take k)
        sum_b := A.sum (b.take k)
        sum_ab := A.sum ((List.zipWith A.mul a b).take k)
        sq_sum_a := A.sum ((a.map fun x => A.mul x x).take k)
        sq_sum_b := A.sum ((b.map fun x => A.mul x x).take k) }
  | 0, _ => by simp [FloatArith.sum]
  | k + 1, hk => by
    have ha : k < a.length := hk
    have hb : k < b.length := hab ▸ hk
    have hz : k < (List.zipWith A.mul a b).length := by simp [← hab]; omega
    have hma : k < (a.map fun x => A.mul x x).length := by simpa using ha
    have hmb : k < (b.map fun x => A.mul x x).length := by simpa using hb
    rw [List.range_succ, List.foldl_append,
      FloatArith.corrSums_take a b hab k (Nat.le_of_lt hk)]
    simp only [List.foldl_cons, List.foldl_nil, FloatArith.corrStep,
      A.sum_take_succ _ _ ha, A.sum_take_succ _ _ hb, A.sum_take_succ _ _ hz,
      A.sum_take_succ _ _ hma, A.sum_take_succ _ _ hmb, List.getD_eq_getElem _ _ ha,
      List.getD_eq_getElem _ _ hb, List.getD_eq_getElem _ _ hz, List.getD_eq_getElem _ _ hma,
      List.getD_eq_getElem _ _ hmb, List.getElem_zipWith, List.getElem_map]

theorem FloatArith.corrSums_eq_sums (a b : List F) (hab : a.length = b.length) :
    A.corrSums a b =
      { sum_a := A.sum a
        sum_b := A.sum b
        sum_ab := A.sum (List.zipWith A.mul a b)
        sq_sum_a := A.sum (a.map fun x => A.mul x x)
        sq_sum_b := A.sum (b.map fun x => A.mul x x) } := by
  rw [FloatArith.corrSums, A.corrSums_take a b hab a.length (le_refl _)]
  have h₁ : (List.zipWith A.mul a b).length ≤ a.length := by simp
  have h₂ : (b.map fun x => A.mul x x).length ≤ a.length := by simp [hab]
  have h₃ : b.length ≤ a.length := by omega
  rw [List.take_of_length_le (le_refl _), List.take_of_length_le h₃,
    List.take_of_length_le h₁, List.take_of_length_le (by simp), List.take_of_length_le h₂]

theorem FloatArith.correlation_is_pearson (err : Int) (a b : List F)
    (hab : a.length = b.length) : A.correlation err a b = (A.pearson a b, err) := by
  simp only [FloatArith.correlation, hab, ne_eq, not_true_eq_false, if_false,
    FloatArith.numerator, FloatArith.denominator, A.corrSums_eq_sums a b hab, FloatArith.pearson]

theorem FloatArith.numerator_eq (a b : List F) (hab : a.length = b.length) :
    A.numerator a b = A.sub (A.mul (A.ofNat a.length) (A.sum (List.zipWith A.mul a b)))
      (A.mul (A.sum a) (A.sum b)) := by
  simp only [FloatArith.numerator, A.corrSums_eq_sums a b hab]

theorem FloatArith.denominator_eq (a b : List F) (hab : a.length = b.length) :
    A.denominator a b = A.sqrt (A.mul
      (A.sub (A.mul (A.ofNat a.length) (A.sum (a.map fun x => A.mul x x)))
        (A.mul (A.sum a) (A.sum a)))
      (A.sub (A.mul (A.ofNat a.length) (A.sum (b.map fun x => A.mul x x)))
        (A.mul (A.sum b) (A.sum b)))) := by
  simp only [FloatArith.denominator, A.corrSums_eq_sums a b hab]

theorem FloatArith.axisVectors_same_length (vec1 vec2 : List (Array3 F)) (i : Fin 3) :
    (A.axisVectors vec1 vec2 i).1.length = (A.axisVectors vec1 vec2 i).2.length := by
  unfold FloatArith.axisVectors FloatArith.resize
  simp only [List.length_map]
  split
  · simp; omega
  · split
    · simp; omega
    · simp; omega

theorem FloatArith.axisVectors_of_equal_length (vec1 vec2 : List (Array3 F)) (i : Fin 3)
    (h : vec1.length = vec2.length) :
    A.axisVectors vec1 vec2 i = (vec1.map fun f => f.get i, vec2.map fun f => f.get i) := by
  simp [FloatArith.axisVectors, h]

theorem FloatArith.axisVectors_fst_mem (vec1 vec2 : List (Array3 F)) (i : Fin 3) (x : F)
    (hx : x ∈ (A.axisVectors vec1 vec2 i).1) : ∃ f ∈ vec1, f.get i = x := by
  unfold FloatArith.axisVectors FloatArith.resize at hx
  simp only [List.length_map] at hx
  split at hx
  · next h =>
    have h0 : vec2.length - vec1.length = 0 := by omega
    simp only [h0, List.replicate_zero, List.append_nil] at hx
    exact List.mem_map.mp (List.mem_of_mem_take hx)
  · split at hx <;> exact List.mem_map.mp hx

theorem FloatArith.axisVectors_snd_mem (vec1 vec2 : List (Array3 F)) (i : Fin 3) (x : F)
    (hx : x ∈ (A.axisVectors vec1 vec2 i).2) : ∃ f ∈ vec2, f.get i = x := by
  unfold FloatArith.axisVectors FloatArith.resize at hx
  simp only [List.length_map] at hx
  split at hx
  · exact List.mem_map.mp hx
  · split at hx
    · next h =>
      have h0 : vec1.length - vec2.length = 0 := by omega
      simp only [h0, List.replicate_zero, List.append_nil] at hx
      exact List.mem_map.mp (List.mem_of_mem_take hx)
    · exact List.mem_map.mp hx

/-- For sequences of any lengths, `calculateCorrelationVectors` returns the
formula on the vectors left by the resize step and leaves `err` as it was. -/
theorem FloatArith.calculateCorrelationVectors_eq_pearson (err : Int)
    (vec1 vec2 : List (Array3 F)) :
    A.calculateCorrelationVectors err vec1 vec2 =
      (⟨A.pearson (A.axisVectors vec1 vec2 0).1 (A.axisVectors vec1 vec2 0).2,
        A.pearson (A.axisVectors vec1 vec2 1).1 (A.axisVectors vec1 vec2 1).2,
        A.pearson (A.axisVectors vec1 vec2 2).1 (A.axisVectors vec1 vec2 2).2⟩, err) := by
  simp only [FloatArith.calculateCorrelationVectors,
    A.correlation_is_pearson _ _ _ (A.axisVectors_same_length vec1 vec2 _)]

theorem FloatArith.calculateCorrelationVectors_get (err : Int)
    (vec1 vec2 : List (Array3 F)) (i : Fin 3) :
    (A.calculateCorrelationVectors err vec1 vec2).1.get i
      = (A.correlation err (A.axisVectors vec1 vec2 i).1 (A.axisVectors vec1 vec2 i).2).1 := by
  rw [A.calculateCorrelationVectors_eq_pearson,
    A.correlation_is_pearson _ _ _ (A.axisVectors_same_length vec1 vec2 _)]
  fin_cases i <;> rfl

theorem FloatArith.countAbove_three_iff (thr : F) (r : Array3 F) :
    A.countAbove thr r = 3 ↔ ∀ i : Fin 3, A.gt (r.get i) thr = true := by
  rw [forall_fin_three]
  simp only [FloatArith.countAbove, finRange_three, List.foldl_cons, List.foldl_nil]
  generalize A.gt (r.get 0) thr = b0
  generalize A.gt (r.get 1) thr = b1
  generalize A.gt (r.get 2) thr = b2
  cases b0 <;> cases b1 <;> cases b2 <;> simp

theorem FloatArith.unlockBranch_status_with_key (thr : F) (st : EngineState F)
    (temp_key : List (Array3 F)) (hkey : st.gesture_key ≠ []) :
    (A.unlockBranch thr st temp_key).2 =
      unlockStatus (A.unlockCounter thr st.err
        (A.calculateCorrelationVectors st.err st.gesture_key temp_key).1) := by
  simp [FloatArith.unlockBranch, hkey, A.calculateCorrelationVectors_eq_pearson]

/-- An axis whose value does not compare greater than the threshold makes
the unlock branch report UNLOCK: FAILED. -/
theorem FloatArith.unlockBranch_failed_of_axis (thr : F) (st : EngineState F)
    (temp_key : List (Array3 F)) (i : Fin 3) (hkey : st.gesture_key ≠ [])
    (hgt : A.gt ((A.calculateCorrelationVectors st.err st.gesture_key temp_key).1.get i) thr
      = false) :
    (A.unlockBranch thr st temp_key).2 = Status.unlockFailed := by
  rw [A.unlockBranch_status_with_key thr st temp_key hkey]
  simp only [unlockStatus, FloatArith.unlockCounter]
  have h3 : ¬ A.countAbove thr
      (A.calculateCorrelationVectors st.err st.gesture_key temp_key).1 = 3 := by
    intro h
    have := (A.countAbove_three_iff thr _).mp h i
    rw [hgt] at this
    exact Bool.false_ne_true this
  split_ifs <;> simp_all

end FloatScoringLemmas

/-! ## Lengths, `err` and the decision in `float` arithmetic

What the scoring functions do with lengths and with `err`, and the control
flow of the unlock branch, do not depend on the arithmetic: the facts below
hold in every arithmetic, hence in the binary32 one. -/

section FloatStructure

variable {F : Type} (A : FloatArith F)

/-- In every arithmetic, `calculateCorrelationVectors` leaves `err` as it
was: the resize step gives `correlation` two vectors of equal length. -/
theorem FloatArith.calculateCorrelationVectors_err (err : Int)
    (vec1 vec2 : List (Array3 F)) :
    (A.calculateCorrelationVectors err vec1 vec2).2 = err := by
  rw [A.calculateCorrelationVectors_eq_pearson]

theorem FloatArith.axisVectors_common_frames (vec1 vec2 : List (Array3 F)) (i : Fin 3) :
    A.axisVectors vec1 vec2 i =
      ((vec1.take (min vec1.length vec2.length)).map fun f => f.get i,
        (vec2.take (min vec1.length vec2.length)).map fun f => f.get i) := by
  unfold FloatArith.axisVectors FloatArith.resize
  simp only [List.length_map]
  split
  · next h =>
    have h0 : vec2.length - vec1.length = 0 := by omega
    have hm : min vec1.length vec2.length = vec2.length := by omega
    simp only [h0, hm, List.replicate_zero, List.append_nil, List.map_take,
      List.take_of_length_le (le_refl vec2.length)]
  · split
    · next h₁ h =>
      have h0 : vec1.length - vec2.length = 0 := by omega
      have hm : min vec1.length vec2.length = vec1.length := by omega
      simp only [h0, hm, List.replicate_zero, List.append_nil, List.map_take,
        List.take_of_length_le (le_refl vec1.length)]
    · next h₁ h₂ =>
      have hm : min vec1.length vec2.length = vec1.length := by omega
      have h3 : vec2.length ≤ vec1.length := by omega
      rw [hm, List.take_of_length_le (le_refl _), List.take_of_length_le h3]

/-- In every arithmetic, only the frames below the smaller of the two
lengths enter the result of `calculateCorrelationVectors`. -/
theorem FloatArith.calculateCorrelationVectors_common_frames (err : Int)
    (vec1 vec2 : List (Array3 F)) :
    A.calculateCorrelationVectors err vec1 vec2 =
      A.calculateCorrelationVectors err (vec1.take (min vec1.length vec2.length))
        (vec2.take (min vec1.length vec2.length)) := by
  have hl : (vec1.take (min vec1.length vec2.length)).length
      = (vec2.take (min vec1.length vec2.length)).length := by
    simp only [List.length_take]; omega
  rw [A.calculateCorrelationVectors_eq_pearson, A.calculateCorrelationVectors_eq_pearson]
  simp only [A.axisVectors_common_frames vec1 vec2, A.axisVectors_of_equal_length _ _ _ hl]

/-- In every arithmetic, the unlock branch without a key reports NO KEY
SAVED and does not score. -/
theorem FloatArith.unlockBranch_without_key (thr : F) (st : EngineState F)
    (temp_key : List (Array3 F)) (h : st.gesture_key = []) :
    A.unlockBranch thr st temp_key = (⟨[], [], st.err⟩, Status.noKeySaved) := by
  simp [FloatArith.unlockBranch, h]

/-- In every arithmetic, the unlock branch leaves `gesture_key` as it was. -/
theorem FloatArith.unlockBranch_keeps_key (thr : F) (st : EngineState F)
    (temp_key : List (Array3 F)) :
    (A.unlockBranch thr st temp_key).1.gesture_key = st.gesture_key := by
  unfold FloatArith.unlockBranch
  simp only
  split <;> rfl

/-- In every arithmetic, with a key present and `err` equal to zero, the
attempt is accepted exactly when each of the three correlations compares
greater than the threshold. -/
theorem FloatArith.unlockBranch_success_iff (thr : F) (st : EngineState F)
    (temp_key : List (Array3 F)) (hkey : st.gesture_key ≠ []) (herr : st.err = 0) :
    (A.unlockBranch thr st temp_key).2 = Status.unlockSuccess ↔
      ∀ i : Fin 3,
        A.gt ((A.calculateCorrelationVectors st.err st.gesture_key temp_key).1.get i) thr
          = true := by
  rw [A.unlockBranch_status_with_key thr st temp_key hkey, ← A.countAbove_three_iff]
  simp only [unlockStatus, FloatArith.unlockCounter, herr, ne_eq, not_true_eq_false, if_false]
  split_ifs with h3 <;> simp [h3]

/-- In every arithmetic, with a key present and `err` not zero, the attempt
is reported UNLOCK: FAILED. -/
theorem FloatArith.unlockBranch_failed_of_err (thr : F) (st : EngineState F)
    (temp_key : List (Array3 F)) (hkey : st.gesture_key ≠ []) (herr : st.err ≠ 0) :
    (A.unlockBranch thr st temp_key).2 = Status.unlockFailed := by
  rw [A.unlockBranch_status_with_key thr st temp_key hkey]
  simp [unlockStatus, FloatArith.unlockCounter, herr]

end FloatStructure

section FloatTruncation

set_option maxRecDepth 1000000

/-- In binary32, for a first sequence of five frames with the values 1, 2, 3,
9, 9 on every axis and a second sequence of three frames with the values 1,
2, 3, `calculateCorrelationVectors` returns 1 on every axis, the correlation
of the first three frames with the second sequence, while the formula on the
five values and the zero-padded array 1, 2, 3, 0, 0 is negative. -/
theorem binary32_longer_sequence_is_truncated :
    binary32.calculateCorrelationVectors 0
        [F32.frame 1 1 1, F32.frame 2 2 2, F32.frame 3 3 3, F32.frame 9 9 9, F32.frame 9 9 9]
        [F32.frame 1 1 1, F32.frame 2 2 2, F32.frame 3 3 3]
      = (⟨F32.ofNat 1, F32.ofNat 1, F32.ofNat 1⟩, 0) ∧
    F32.gt (F32.ofNat 0)
      (binary32.pearson [F32.ofNat 1, F32.ofNat 2, F32.ofNat 3, F32.ofNat 9, F32.ofNat 9]
        [F32.ofNat 1, F32.ofNat 2, F32.ofNat 3, F32.ofNat 0, F32.ofNat 0]) = true := by
  refine ⟨by decide, by decide⟩

end FloatTruncation

/-! ## Binary32 arithmetic on zeros: auxiliary facts -/

section Binary32Lemmas

theorem F32.round_zero (neg : Bool) (q : Nat) (k : Int) :
    F32.round neg 0 q k = F32.finite neg 0 (-149) := by
  simp [F32.round]

theorem F32.scaled_zero (neg : Bool) (sh : Int) : F32.scaled neg 0 sh = 0 := by
  cases neg <;> simp [F32.scaled]

theorem F32.zeroOrNaN_of_isZero {z : F32} (hz : z.isZero = true) : z.zeroOrNaN = true := by
  cases z <;> simp_all [F32.isZero, F32.zeroOrNaN]

theorem F32.zeroOrNaN_mul_left (z x : F32) (hz : z.zeroOrNaN = true) :
    (F32.mul z x).zeroOrNaN = true := by
  cases z <;> cases x <;> simp_all [F32.mul, F32.zeroOrNaN, F32.round_zero]

theorem F32.zeroOrNaN_mul_right (x z : F32) (hz : z.zeroOrNaN = true) :
    (F32.mul x z).zeroOrNaN = true := by
  cases z <;> cases x <;> simp_all [F32.mul, F32.zeroOrNaN, F32.round_zero]

theorem F32.zeroOrNaN_add (x y : F32) (hx : x.zeroOrNaN = true) (hy : y.zeroOrNaN = true) :
    (F32.add x y).zeroOrNaN = true := by
  cases x <;> cases y <;> simp_all [F32.add, F32.zeroOrNaN, F32.scaled_zero]

theorem F32.zeroOrNaN_neg (x : F32) (hx : x.zeroOrNaN = true) : (F32.neg x).zeroOrNaN = true := by
  cases x <;> simp_all [F32.neg, F32.zeroOrNaN]

theorem F32.zeroOrNaN_sub (x y : F32) (hx : x.zeroOrNaN = true) (hy : y.zeroOrNaN = true) :
    (F32.sub x y).zeroOrNaN = true :=
  F32.zeroOrNaN_add x _ hx (F32.zeroOrNaN_neg y hy)

theorem F32.zeroOrNaN_sqrt (x : F32) (hx : x.zeroOrNaN = true) :
    (F32.sqrt x).zeroOrNaN = true := by
  cases x <;> simp_all [F32.sqrt, F32.zeroOrNaN]

/-- The quotient of a zero or NaN by a zero or NaN is NaN. -/
theorem F32.div_zeroOrNaN (x y : F32) (hx : x.zeroOrNaN = true) (hy : y.zeroOrNaN = true) :
    F32.div x y = F32.nan := by
  cases x <;> cases y <;> simp_all [F32.div, F32.zeroOrNaN]

/-- A division by a zero of either sign gives an infinity or NaN. -/
theorem F32.div_isZero (x z : F32) (hz : z.isZero = true) : (F32.div x z).isFinite = false := by
  cases x <;> cases z <;> simp_all [F32.div, F32.isZero, F32.isFinite]
  split_ifs <;> rfl

theorem F32.gt_nan (t : F32) : F32.gt F32.nan t = false := by
  cases t <;> rfl

theorem binary32_foldl_zeroOrNaN (l : List F32) (h : ∀ x ∈ l, x.zeroOrNaN = true) :
    ∀ acc : F32, acc.zeroOrNaN = true → (l.foldl F32.add acc).zeroOrNaN = true := by
  induction l with
  | nil => intro acc hacc; simpa using hacc
  | cons x xs ih =>
    intro acc hacc
    simp only [List.foldl_cons]
    exact ih (fun y hy => h y (List.mem_cons_of_mem _ hy)) _
      (F32.zeroOrNaN_add _ _ hacc (h x (List.mem_cons_self _ _)))

theorem binary32_sum_zeroOrNaN (l : List F32) (h : ∀ x ∈ l, x.zeroOrNaN = true) :
    (binary32.sum l).zeroOrNaN = true :=
  binary32_foldl_zeroOrNaN l h _ rfl

theorem zipWith_mul_zeroOrNaN_left : ∀ (a b : List F32), (∀ x ∈ a, x.zeroOrNaN = true) →
    ∀ y ∈ List.zipWith F32.mul a b, y.zeroOrNaN = true
  | [], _, _, y, hy => by simp at hy
  | _ :: _, [], _, y, hy => by simp at hy
  | x :: xs, z :: zs, h, y, hy => by
    simp only [List.zipWith_cons_cons, List.mem_cons] at hy
    rcases hy with rfl | hy
    · exact F32.zeroOrNaN_mul_left _ _ (h x (List.mem_cons_self _ _))
    · exact zipWith_mul_zeroOrNaN_left xs zs (fun w hw => h w (List.mem_cons_of_mem _ hw)) y hy

theorem zipWith_mul_zeroOrNaN_right : ∀ (a b : List F32), (∀ x ∈ b, x.zeroOrNaN = true) →
    ∀ y ∈ List.zipWith F32.mul a b, y.zeroOrNaN = true
  | [], _, _, y, hy => by simp at hy
  | _ :: _, [], _, y, hy => by simp at hy
  | x :: xs, z :: zs, h, y, hy => by
    simp only [List.zipWith_cons_cons, List.mem_cons] at hy
    rcases hy with rfl | hy
    · exact F32.zeroOrNaN_mul_right _ _ (h z (List.mem_cons_self _ _))
    · exact zipWith_mul_zeroOrNaN_right xs zs (fun w hw => h w (List.mem_cons_of_mem _ hw)) y hy

/-- When one of two arrays of equal length holds only zeros, the denominator
that `correlation` computes in binary32 is a zero or NaN and the returned
quotient is NaN. -/
theorem binary32_correlation_of_zeros (err : Int) (a b : List F32) (hab : a.length = b.length)
    (h : (∀ x ∈ a, x.isZero = true) ∨ (∀ x ∈ b, x.isZero = true)) :
    (binary32.denominator a b).zeroOrNaN = true ∧
    (binary32.correlation err a b).1 = F32.nan := by
  have hnum : (binary32.numerator a b).zeroOrNaN = true := by
    rw [binary32.numerator_eq a b hab]
    apply F32.zeroOrNaN_sub
    · apply F32.zeroOrNaN_mul_right
      apply binary32_sum_zeroOrNaN
      rcases h with h | h
      · exact zipWith_mul_zeroOrNaN_left a b (fun x hx => F32.zeroOrNaN_of_isZero (h x hx))
      · exact zipWith_mul_zeroOrNaN_right a b (fun x hx => F32.zeroOrNaN_of_isZero (h x hx))
    · rcases h with h | h
      · exact F32.zeroOrNaN_mul_left _ _
          (binary32_sum_zeroOrNaN a fun x hx => F32.zeroOrNaN_of_isZero (h x hx))
      · exact F32.zeroOrNaN_mul_right _ _
          (binary32_sum_zeroOrNaN b fun x hx => F32.zeroOrNaN_of_isZero (h x hx))
  have hvar : ∀ l : List F32, (∀ x ∈ l, x.isZero = true) → ∀ n : Nat,
      (F32.sub (F32.mul (F32.ofNat n) (binary32.sum (l.map fun x => F32.mul x x)))
        (F32.mul (binary32.sum l) (binary32.sum l))).zeroOrNaN = true := by
    intro l hl n
    apply F32.zeroOrNaN_sub
    · apply F32.zeroOrNaN_mul_right
      apply binary32_sum_zeroOrNaN
      intro y hy
      obtain ⟨x, hx, rfl⟩ := List.mem_map.mp hy
      exact F32.zeroOrNaN_mul_left _ _ (F32.zeroOrNaN_of_isZero (hl x hx))
    · exact F32.zeroOrNaN_mul_left _ _
        (binary32_sum_zeroOrNaN l fun x hx => F32.zeroOrNaN_of_isZero (hl x hx))
  have hden : (binary32.denominator a b).zeroOrNaN = true := by
    rw [binary32.denominator_eq a b hab]
    apply F32.zeroOrNaN_sqrt
    rcases h with h | h
    · exact F32.zeroOrNaN_mul_left _ _ (hvar a h a.length)
    · exact F32.zeroOrNaN_mul_right _ _ (hvar b h a.length)
  refine ⟨hden, ?_⟩
  simp only [FloatArith.correlation, hab, ne_eq, not_true_eq_false, if_false]
  exact F32.div_zeroOrNaN _ _ hnum hden

end Binary32Lemmas

/-! ## Scoring in `float` arithmetic: claims -/

section Binary32Claims

set_option maxRecDepth 1000000

/-- Claim C5. In the `float` arithmetic of the target, for arrays `a`, `b`
of equal length `n`, `correlation` returns
`(n Σ aᵢbᵢ − Σ aᵢ Σ bᵢ) / sqrt ((n Σ aᵢ² − (Σ aᵢ)²) (n Σ bᵢ² − (Σ bᵢ)²))`,
every operation being the binary32 one and every sum accumulated from zero
in index order, and for sequences of equal length
`calculateCorrelationVectors` returns this value for axis 0, axis 1 and
axis 2 of the two sequences, in that order. -/
theorem C5_correlation_is_pearson_formula (err : Int) (a b : List F32)
    (vec1 vec2 : List (Array3 F32)) (hab : a.length = b.length)
    (hvec : vec1.length = vec2.length) :
    (binary32.correlation err a b).1 =
      F32.div
        (F32.sub (F32.mul (F32.ofNat a.length) (binary32.sum (List.zipWith F32.mul a b)))
          (F32.mul (binary32.sum a) (binary32.sum b)))
        (F32.sqrt (F32.mul
          (F32.sub (F32.mul (F32.ofNat a.length) (binary32.sum (a.map fun x => F32.mul x x)))
            (F32.mul (binary32.sum a) (binary32.sum a)))
          (F32.sub (F32.mul (F32.ofNat a.length) (binary32.sum (b.map fun x => F32.mul x x)))
            (F32.mul (binary32.sum b) (binary32.sum b))))) ∧
    (binary32.calculateCorrelationVectors err vec1 vec2).1 =
      ⟨binary32.pearson (vec1.map fun f => f.get 0) (vec2.map fun f => f.get 0),
        binary32.pearson (vec1.map fun f => f.get 1) (vec2.map fun f => f.get 1),
        binary32.pearson (vec1.map fun f => f.get 2) (vec2.map fun f => f.get 2)⟩ := by
  refine ⟨?_, ?_⟩
  · rw [binary32.correlation_is_pearson err a b hab]
    rfl
  · rw [binary32.calculateCorrelationVectors_eq_pearson]
    simp only [binary32.axisVectors_of_equal_length vec1 vec2 _ hvec]

/-- Claim C5 on the arrays `[1, 2]`, `[3, 5]` and two sequences of one
frame. -/
theorem C5_correlation_is_pearson_formula_witness :
    (binary32.correlation 0 [F32.ofNat 1, F32.ofNat 2] [F32.ofNat 3, F32.ofNat 5]).1 =
      binary32.pearson [F32.ofNat 1, F32.ofNat 2] [F32.ofNat 3, F32.ofNat 5] ∧
    (binary32.calculateCorrelationVectors 0 [F32.frame 1 2 3] [F32.frame 4 5 6]).1 =
      ⟨binary32.pearson [F32.ofNat 1] [F32.ofNat 4], binary32.pearson [F32.ofNat 2] [F32.ofNat 5],
        binary32.pearson [F32.ofNat 3] [F32.ofNat 6]⟩ :=
  C5_correlation_is_pearson_formula 0 [F32.ofNat 1, F32.ofNat 2] [F32.ofNat 3, F32.ofNat 5]
    [F32.frame 1 2 3] [F32.frame 4 5 6] rfl rfl

theorem exactVarianceTerm_pair (x y : F32) :
    exactVarianceTerm [x, y] = (x.toRat - y.toRat) ^ 2 := by
  simp only [exactVarianceTerm, List.length_cons, List.length_nil, List.map_cons, List.map_nil,
    List.sum_cons, List.sum_nil]
  push_cast
  ring

/-- Claim C6, the code at failing inputs. A sequence of two frames that hold
32.3925 and 32.41 on every axis has a non-zero variance on every axis, the
denominator that `correlation` computes for each axis is not a zero either,
and `calculateCorrelationVectors` on this sequence and itself returns -1 on
every axis; for the frames that hold 2896 and 2897, of non-zero variance as
well, it returns NaN on every axis. -/
theorem C6_identical_sequences_do_not_score_one :
    (∀ i : Fin 3, exactVarianceTerm
      (([F32.sample 323925 10000, F32.sample 3241 100] : List (Array3 F32)).map
        fun f => f.get i) ≠ 0) ∧
    (∀ i : Fin 3, (binary32.denominator
      (([F32.sample 323925 10000, F32.sample 3241 100] : List (Array3 F32)).map
        fun f => f.get i)
      (([F32.sample 323925 10000, F32.sample 3241 100] : List (Array3 F32)).map
        fun f => f.get i)).isZero = false) ∧
    binary32.calculateCorrelationVectors 0 [F32.sample 323925 10000, F32.sample 3241 100]
        [F32.sample 323925 10000, F32.sample 3241 100]
      = (⟨F32.neg (F32.ofNat 1), F32.neg (F32.ofNat 1), F32.neg (F32.ofNat 1)⟩, 0) ∧
    (∀ i : Fin 3, exactVarianceTerm
      (([F32.frame 2896 2896 2896, F32.frame 2897 2897 2897] : List (Array3 F32)).map
        fun f => f.get i) ≠ 0) ∧
    binary32.calculateCorrelationVectors 0 [F32.frame 2896 2896 2896, F32.frame 2897 2897 2897]
        [F32.frame 2896 2896 2896, F32.frame 2897 2897 2897]
      = (⟨F32.nan, F32.nan, F32.nan⟩, 0) := by
  have h1 : F32.ofRat 323925 10000 = F32.finite false 8491500 (-18) := by decide
  have h2 : F32.ofRat 3241 100 = F32.finite false 8496087 (-18) := by decide
  have h3 : F32.ofNat 2896 = F32.finite false 11862016 (-12) := by decide
  have h4 : F32.ofNat 2897 = F32.finite false 11866112 (-12) := by decide
  refine ⟨?_, by decide, by decide, ?_, by decide⟩
  · intro i
    fin_cases i <;>
      (simp only [List.map_cons, List.map_nil, F32.sample, Array3.get, exactVarianceTerm_pair,
        h1, h2, F32.toRat]
       norm_num)
  · intro i
    fin_cases i <;>
      (simp only [List.map_cons, List.map_nil, F32.frame, Array3.get, exactVarianceTerm_pair,
        h3, h4, F32.toRat]
       norm_num)

/-- Claim C28, the code at failing inputs. With the key made of two frames
that hold 22.82 and 22.8375 on every axis, which has a non-zero variance on
every axis, and `err` equal to zero, an unlock attempt whose trimmed capture
is the key itself is reported UNLOCK: FAILED, every correlation being NaN; so
is the attempt that replays the key made of the frames that hold 32.3925 and
32.41, for which the computed denominators are not zero and every
correlation is -1. -/
theorem C28_identical_attempt_is_rejected :
    (∀ i : Fin 3, exactVarianceTerm
      (([F32.sample 2282 100, F32.sample 228375 10000] : List (Array3 F32)).map
        fun f => f.get i) ≠ 0) ∧
    binary32.unlockBranch F32.CORRELATION_THRESHOLD
        ⟨[F32.sample 2282 100, F32.sample 228375 10000], [], 0⟩
        [F32.sample 2282 100, F32.sample 228375 10000]
      = (⟨[F32.sample 2282 100, F32.sample 228375 10000], [], 0⟩, Status.unlockFailed) ∧
    binary32.calculateCorrelationVectors 0 [F32.sample 2282 100, F32.sample 228375 10000]
        [F32.sample 2282 100, F32.sample 228375 10000]
      = (⟨F32.nan, F32.nan, F32.nan⟩, 0) ∧
    binary32.unlockBranch F32.CORRELATION_THRESHOLD
        ⟨[F32.sample 323925 10000, F32.sample 3241 100], [], 0⟩
        [F32.sample 323925 10000, F32.sample 3241 100]
      = (⟨[F32.sample 323925 10000, F32.sample 3241 100], [], 0⟩, Status.unlockFailed) ∧
    (∀ i : Fin 3, exactVarianceTerm
      (([F32.sample 323925 10000, F32.sample 3241 100] : List (Array3 F32)).map
        fun f => f.get i) ≠ 0) ∧
    (∀ i : Fin 3, (binary32.denominator
      (([F32.sample 323925 10000, F32.sample 3241 100] : List (Array3 F32)).map
        fun f => f.get i)
      (([F32.sample 323925 10000, F32.sample 3241 100] : List (Array3 F32)).map
        fun f => f.get i)).isZero = false) := by
  have h1 : F32.ofRat 2282 100 = F32.finite false 11964252 (-19) := by decide
  have h2 : F32.ofRat 228375 10000 = F32.finite false 11973427 (-19) := by decide
  have h3 : F32.ofRat 323925 10000 = F32.finite false 8491500 (-18) := by decide
  have h4 : F32.ofRat 3241 100 = F32.finite false 8496087 (-18) := by decide
  refine ⟨?_, by decide, by decide, by decide, ?_, by decide⟩
  · intro i
    fin_cases i <;>
      (simp only [List.map_cons, List.map_nil, F32.sample, Array3.get, exactVarianceTerm_pair,
        h1, h2, F32.toRat]
       norm_num)
  · intro i
    fin_cases i <;>
      (simp only [List.map_cons, List.map_nil, F32.sample, Array3.get, exactVarianceTerm_pair,
        h3, h4, F32.toRat]
       norm_num)

/-- Claim C29, the code at failing inputs. The arrays `[4974, 4971]` and
`[4975, 4972]` have equal length and non-zero variance, and `correlation`
returns 2 for them; for the arrays `[50.6275, 50.6625]` and
`[32.8825, 32.9]` it returns `11863283 * 2^-23`, about 1.4142. Both values
are greater than 1, and the computed denominators, 8 and `11863283 * 2^-34`,
are not zero. -/
theorem C29_correlation_exceeds_one :
    exactVarianceTerm [F32.ofNat 4974, F32.ofNat 4971] ≠ 0 ∧
    exactVarianceTerm [F32.ofNat 4975, F32.ofNat 4972] ≠ 0 ∧
    binary32.denominator [F32.ofNat 4974, F32.ofNat 4971] [F32.ofNat 4975, F32.ofNat 4972]
      = F32.ofNat 8 ∧
    binary32.correlation 0 [F32.ofNat 4974, F32.ofNat 4971] [F32.ofNat 4975, F32.ofNat 4972]
      = (F32.ofNat 2, 0) ∧
    F32.gt (F32.ofNat 2) (F32.ofNat 1) = true ∧
    exactVarianceTerm [F32.ofRat 506275 10000, F32.ofRat 506625 10000] ≠ 0 ∧
    exactVarianceTerm [F32.ofRat 328825 10000, F32.ofRat 329 10] ≠ 0 ∧
    binary32.denominator [F32.ofRat 506275 10000, F32.ofRat 506625 10000]
        [F32.ofRat 328825 10000, F32.ofRat 329 10]
      = F32.finite false 11863283 (-34) ∧
    binary32.correlation 0 [F32.ofRat 506275 10000, F32.ofRat 506625 10000]
        [F32.ofRat 328825 10000, F32.ofRat 329 10]
      = (F32.finite false 11863283 (-23), 0) ∧
    F32.gt (F32.finite false 11863283 (-23)) (F32.ofNat 1) = true := by
  have h1 : F32.ofNat 4974 = F32.finite false 10186752 (-11) := by decide
  have h2 : F32.ofNat 4971 = F32.finite false 10180608 (-11) := by decide
  have h3 : F32.ofNat 4975 = F32.finite false 10188800 (-11) := by decide
  have h4 : F32.ofNat 4972 = F32.finite false 10182656 (-11) := by decide
  have h5 : F32.ofRat 506275 10000 = F32.finite false 13271695 (-18) := by decide
  have h6 : F32.ofRat 506625 10000 = F32.finite false 13280870 (-18) := by decide
  have h7 : F32.ofRat 328825 10000 = F32.finite false 8619950 (-18) := by decide
  have h8 : F32.ofRat 329 10 = F32.finite false 8624538 (-18) := by decide
  refine ⟨?_, ?_, by decide, by decide, by decide, ?_, ?_, by decide, by decide, by decide⟩
  · rw [exactVarianceTerm_pair, h1, h2]; norm_num [F32.toRat]
  · rw [exactVarianceTerm_pair, h3, h4]; norm_num [F32.toRat]
  · rw [exactVarianceTerm_pair, h5, h6]; norm_num [F32.toRat]
  · rw [exactVarianceTerm_pair, h7, h8]; norm_num [F32.toRat]

end Binary32Claims

/-! ## Degenerate statistics in `float` arithmetic: claims -/

section Binary32DegenerateClaims

set_option maxRecDepth 1000000

/-- Claim C16 as stated fails. The array `[2365, 2365, 2365]` is constant
and has zero variance, but the denominator that `correlation` computes for
it and itself is 4, not zero, and `correlation` returns the finite value 1;
the same holds for the constant array of seven elements `0.7f`, whose
computed denominator is not a zero. -/
theorem C16_constant_array_has_nonzero_denominator :
    exactVarianceTerm (List.replicate 3 (F32.ofNat 2365)) = 0 ∧
    binary32.denominator (List.replicate 3 (F32.ofNat 2365)) (List.replicate 3 (F32.ofNat 2365))
      = F32.ofNat 4 ∧
    binary32.correlation 0 (List.replicate 3 (F32.ofNat 2365))
        (List.replicate 3 (F32.ofNat 2365)) = (F32.ofNat 1, 0) ∧
    (binary32.denominator (List.replicate 7 (F32.ofRat 7 10))
      (List.replicate 7 (F32.ofRat 7 10))).isZero = false ∧
    binary32.correlation 0 (List.replicate 7 (F32.ofRat 7 10))
        (List.replicate 7 (F32.ofRat 7 10)) = (F32.ofNat 1, 0) := by
  have h1 : F32.ofNat 2365 = F32.finite false 9687040 (-12) := by decide
  refine ⟨?_, by decide, by decide, by decide, by decide⟩
  simp only [exactVarianceTerm, List.replicate, List.length_cons, List.length_nil, List.map_cons,
    List.map_nil, List.sum_cons, List.sum_nil, h1, F32.toRat]
  norm_num

/-- Claim C16, amended. `correlation` returns the binary32 quotient of its
numerator by its denominator with no guard: for arrays of equal length whose
computed denominator is a zero the returned value is an infinity or NaN, and
when one of the arrays holds only zeros (as every array of length 0 does) the
computed denominator is a zero or NaN and the returned value is NaN. -/
theorem C16_zero_denominator_is_not_guarded (err : Int) (a b : List F32)
    (hab : a.length = b.length) :
    (binary32.correlation err a b).1
      = F32.div (binary32.numerator a b) (binary32.denominator a b) ∧
    ((binary32.denominator a b).isZero = true →
      ((binary32.correlation err a b).1).isFinite = false) ∧
    ((∀ x ∈ a, x.isZero = true) ∨ (∀ x ∈ b, x.isZero = true) →
      (binary32.denominator a b).zeroOrNaN = true ∧
      (binary32.correlation err a b).1 = F32.nan) := by
  have hc : (binary32.correlation err a b).1
      = F32.div (binary32.numerator a b) (binary32.denominator a b) := by
    simp only [FloatArith.correlation, hab, ne_eq, not_true_eq_false, if_false]
    rfl
  refine ⟨hc, fun hz => ?_, fun h => binary32_correlation_of_zeros err a b hab h⟩
  rw [hc]
  exact F32.div_isZero _ _ hz

/-- Claim C16, amended, on the array `[0, 0, 0]` and the array `[1, 2, 3]`,
and on two empty arrays. -/
theorem C16_zero_denominator_is_not_guarded_witness :
    ((binary32.denominator [F32.ofNat 0, F32.ofNat 0, F32.ofNat 0]
        [F32.ofNat 1, F32.ofNat 2, F32.ofNat 3]).zeroOrNaN = true ∧
      (binary32.correlation 0 [F32.ofNat 0, F32.ofNat 0, F32.ofNat 0]
        [F32.ofNat 1, F32.ofNat 2, F32.ofNat 3]).1 = F32.nan) ∧
    ((binary32.correlation 0 [] []).1).isFinite = false :=
  ⟨(C16_zero_denominator_is_not_guarded 0 [F32.ofNat 0, F32.ofNat 0, F32.ofNat 0]
      [F32.ofNat 1, F32.ofNat 2, F32.ofNat 3] rfl).2.2 (Or.inl (by decide)),
    (C16_zero_denominator_is_not_guarded 0 [] [] rfl).2.1 (by decide)⟩

/-- Claim C17 as stated fails. For a key and an attempt made of the frames
`(1, 5, 3)` and `(2, 5, 7)`, axis 1 is constant and the value that
`calculateCorrelationVectors` returns for axis 1 is NaN; so it is for the
frames `(1, 0, 3)` and `(2, 0, 7)`, whose axis 1 is zero, and this attempt is
reported UNLOCK: FAILED although axes 0 and 2 score 1. -/
theorem C17_constant_axis_gives_nan :
    (binary32.calculateCorrelationVectors 0 [F32.frame 1 5 3, F32.frame 2 5 7]
      [F32.frame 1 5 3, F32.frame 2 5 7]).1.get 1 = F32.nan ∧
    binary32.calculateCorrelationVectors 0 [F32.frame 1 0 3, F32.frame 2 0 7]
      [F32.frame 1 0 3, F32.frame 2 0 7] = (⟨F32.ofNat 1, F32.nan, F32.ofNat 1⟩, 0) ∧
    (binary32.unlockBranch F32.CORRELATION_THRESHOLD
      ⟨[F32.frame 1 0 3, F32.frame 2 0 7], [], 0⟩ [F32.frame 1 0 3, F32.frame 2 0 7]).2
        = Status.unlockFailed := by
  refine ⟨by decide, by decide, by decide⟩

/-- Claim C17, amended. When axis `i` of the key or of the attempt holds only
zeros, the value that `calculateCorrelationVectors` returns for axis `i` in
binary32 is NaN, the result of the unguarded division of zero by zero; it
reaches the comparison with `CORRELATION_THRESHOLD`, which it fails, so that
an unlock attempt scored against a key is reported UNLOCK: FAILED. -/
theorem C17_zero_axis_is_nan_and_rejects (st : EngineState F32)
    (temp_key : List (Array3 F32)) (i : Fin 3) (hkey : st.gesture_key ≠ [])
    (hzero : (∀ f ∈ st.gesture_key, (f.get i).isZero = true) ∨
      (∀ f ∈ temp_key, (f.get i).isZero = true)) :
    (binary32.calculateCorrelationVectors st.err st.gesture_key temp_key).1.get i = F32.nan ∧
    F32.gt ((binary32.calculateCorrelationVectors st.err st.gesture_key temp_key).1.get i)
      F32.CORRELATION_THRESHOLD = false ∧
    (binary32.unlockBranch F32.CORRELATION_THRESHOLD st temp_key).2 = Status.unlockFailed := by
  have hnan : (binary32.calculateCorrelationVectors st.err st.gesture_key temp_key).1.get i
      = F32.nan := by
    rw [binary32.calculateCorrelationVectors_get]
    refine (binary32_correlation_of_zeros _ _ _ (binary32.axisVectors_same_length _ _ _) ?_).2
    rcases hzero with h | h
    · left
      intro x hx
      obtain ⟨f, hf, rfl⟩ := binary32.axisVectors_fst_mem _ _ _ _ hx
      exact h f hf
    · right
      intro x hx
      obtain ⟨f, hf, rfl⟩ := binary32.axisVectors_snd_mem _ _ _ _ hx
      exact h f hf
  have hgt : F32.gt ((binary32.calculateCorrelationVectors st.err st.gesture_key
      temp_key).1.get i) F32.CORRELATION_THRESHOLD = false := by
    rw [hnan]
    exact F32.gt_nan _
  exact ⟨hnan, hgt, binary32.unlockBranch_failed_of_axis _ st temp_key i hkey hgt⟩

/-- Claim C17, amended, on a key with a zero axis 1 and an attempt that
differs from the key. -/
theorem C17_zero_axis_is_nan_and_rejects_witness :
    (binary32.unlockBranch F32.CORRELATION_THRESHOLD
      ⟨[F32.frame 1 0 3, F32.frame 2 0 7], [], 0⟩ [F32.frame 1 2 3, F32.frame 2 4 7]).2
        = Status.unlockFailed :=
  (C17_zero_axis_is_nan_and_rejects ⟨[F32.frame 1 0 3, F32.frame 2 0 7], [], 0⟩
    [F32.frame 1 2 3, F32.frame 2 4 7] 1 (by simp) (Or.inl (by decide))).2.2

end Binary32DegenerateClaims

end GestureUnlock
